import Mathlib

/-!
Verification development for the `ats-checker` TypeScript library.

The definitions below are a shallow embedding of the library's source:
  * `src/utils/text.ts`, `src/utils/skills.ts`, `src/utils/dates.ts`
  * `src/core/parser/resume.parser.ts`, `src/core/parser/jd.parser.ts`
  * `src/core/scoring/weights.ts`, `src/core/scoring/scorer.ts`
  * `src/core/rules/rule.engine.ts`, `src/core/suggestions/suggestion.engine.ts`
  * `src/llm/llm.budget.ts`, `src/llm/llm.manager.ts`, `src/llm/validation.ts`,
    `src/llm/llm.adapters.ts`, `src/llm/llm.schemas.ts`, `src/llm/llm.prompts.ts`
  * `src/profiles.ts` and the entry points in `src/index.ts`
    (`analyzeResume`, `analyzeResumeAsync`).

Modelling conventions:
  * JavaScript strings are `List Char` (`Str`); JavaScript numbers are `ℚ`
    (every numeric value the library manipulates is produced by exact
    small-denominator arithmetic, so `ℚ` is a faithful carrier).
  * JS regular-expression tests are compiled by hand to character-list
    scanners with the same leftmost-match / ordered-alternation semantics;
    each scanner notes the regex it implements.
  * The `\s` character class is modelled by its ASCII members (space, tab,
    newline, carriage return, vertical tab, form feed); the repository's
    corpus is ASCII.
  * JS `Set` iteration order (insertion order, first occurrence kept) is
    modelled by `dedupKeepFirst`; `Record<string, _>` objects are modelled
    by ordered association lists.
  * The external LLM client (`LLMClient.createCompletion`) is a boundary
    interface supplied by the caller; it is modelled by the observable
    outcome (`CallOutcome`) of the single call an analysis makes, including
    the outcome of `JSON.parse` on textual content (a platform primitive).
-/

set_option autoImplicit false

-- Mathlib marks the core rational operations `irreducible`; witness and
-- counterexample evaluations reduce them, so restore semireducibility.
unseal Rat.mul Rat.inv Rat.add Rat.sub

namespace ATS

/-- JavaScript strings, modelled as lists of characters. -/
abbrev Str := List Char

/-- Shorthand to turn a Lean string literal into a `Str`. -/
def S (s : String) : Str := s.toList

/-- The ASCII members of the JS `\s` character class
(space, tab, LF, VT, FF, CR). -/
def jsIsWhitespace (c : Char) : Bool :=
  c == ' ' || c == '\t' || c == '\n' || c == '\r' ||
  c == Char.ofNat 11 || c == Char.ofNat 12

/-- JS `String.prototype.trim`: strip leading and trailing whitespace. -/
def jsTrim (s : Str) : Str :=
  ((s.dropWhile jsIsWhitespace).reverse.dropWhile jsIsWhitespace).reverse

/-- Lowercasing of a JS string (`String.prototype.toLowerCase`), ASCII. -/
def toLowerStr (s : Str) : Str := s.map Char.toLower

/-- Splits a list into the maximal runs of characters satisfying `p`,
dropping separator characters (auxiliary, with an accumulator for the
current run held in reverse). -/
def chunksByAux (p : Char → Bool) : Str → Str → List Str
  | [], acc => if acc.isEmpty then [] else [acc.reverse]
  | c :: rest, acc =>
    if p c then chunksByAux p rest (c :: acc)
    else if acc.isEmpty then chunksByAux p rest []
    else acc.reverse :: chunksByAux p rest []

/-- Maximal runs of characters satisfying `p` (used to model JS
`split` on the complementary character class, after the empty fragments
produced by JS `split` are filtered away). -/
def chunksBy (p : Char → Bool) (s : Str) : List Str := chunksByAux p s []

/-- `replace(/\r\n?/g, "\n")`: normalize CRLF and lone CR to LF. -/
def normalizeNewlines : Str → Str
  | [] => []
  | '\r' :: '\n' :: rest => '\n' :: normalizeNewlines rest
  | '\r' :: rest => '\n' :: normalizeNewlines rest
  | c :: rest => c :: normalizeNewlines rest

/-- `STOP_WORDS` from `src/utils/text.ts`. -/
def STOP_WORDS : List Str :=
  [S "the", S "and", S "or", S "a", S "an", S "of", S "for", S "to",
   S "with", S "in", S "on", S "at", S "by", S "from", S "as", S "is",
   S "are", S "be", S "this", S "that", S "it", S "was", S "were",
   S "will", S "can", S "should", S "must", S "have", S "has", S "had"]

/-- `normalizeWhitespace`: `.replace(/\r\n?/g,"\n").replace(/\s+/g," ").trim()`.
Collapsing every whitespace run to one space and trimming is exactly
"join the maximal non-whitespace runs with single spaces" (CR/LF are
whitespace, so the newline normalization pass is absorbed). -/
def normalizeWhitespace (s : Str) : Str :=
  (S " ").intercalate (chunksBy (fun c => !jsIsWhitespace c) s)

/-- `normalizeForComparison`: `normalizeWhitespace(text).toLowerCase()`. -/
def normalizeForComparison (s : Str) : Str := toLowerStr (normalizeWhitespace s)

/-- `splitLines`: normalize newlines, split on `"\n"`, trim each line and
drop empty lines (`filter(Boolean)`). -/
def splitLines (s : Str) : List Str :=
  (((normalizeNewlines s).splitOn '\n').map jsTrim).filter (fun l => !l.isEmpty)

/-- The token character class of `tokenize`'s separator regex
`/[^a-z0-9+]+/i` (complement): ASCII letters, digits and `+`. -/
def isTokenChar (c : Char) : Bool :=
  ('a' ≤ c && c ≤ 'z') || ('A' ≤ c && c ≤ 'Z') ||
  ('0' ≤ c && c ≤ '9') || c == '+'

/-- `tokenize`: lowercase-normalize, split on `/[^a-z0-9+]+/i`, keep words
of length > 1 that are not stop words.  (JS `split` can yield empty
fragments and the `map(trim)` step is the identity on fragments made of
token characters; both are absorbed by the final filter.) -/
def tokenize (s : Str) : List Str :=
  (chunksBy isTokenChar (normalizeForComparison s)).filter
    (fun word => decide (1 < word.length) && !STOP_WORDS.contains word)

/-- Auxiliary for `unique`: `seen` holds the lowercased forms already kept. -/
def uniqueAux : List Str → List Str → List Str
  | _, [] => []
  | seen, v :: rest =>
    if toLowerStr v ∈ seen then uniqueAux seen rest
    else v :: uniqueAux (toLowerStr v :: seen) rest

/-- `unique`: keep the first occurrence of each case-insensitive class,
preserving original case and order. -/
def unique (l : List Str) : List Str := uniqueAux [] l

/-- `clamp(value, min, max) = Math.min(Math.max(value, min), max)`. -/
def clamp (value lo hi : ℚ) : ℚ := min (max value lo) hi

/-- `countFrequencies(values)[k] ?? 0`: the `Record<string, number>` of
occurrence counts is modelled by its lookup function. -/
def countFreq (values : List Str) (k : Str) : ℕ := values.count k

/-- Substring test (`String.prototype.includes` / an unanchored regex
literal-alternative test). -/
def containsSub (hay needle : Str) : Bool :=
  hay.tails.any (fun t => needle.isPrefixOf t)

/-- `hasPipeColumns`: `line.includes("|") && line.split("|").length >= 3`. -/
def hasPipeColumns (line : Str) : Bool :=
  line.contains '|' && decide (3 ≤ (line.splitOn '|').length)

/-- `/\t.+\t/.test(line)`: a tab, at least one character, then a tab
(lines contain no line terminators, so `.` matches every character). -/
def hasTabColumns : Str → Bool
  | [] => false
  | c :: rest =>
    (c == '\t' && (match rest with
      | [] => false
      | _ :: rest2 => rest2.contains '\t')) || hasTabColumns rest

/-- Whether `s` itself starts with a match of
`( {3,})(\S+)( {3,}\S+)`: at least three spaces, a non-whitespace run,
at least three spaces, then a non-whitespace character.  Maximal runs are
taken; regex backtracking cannot produce a match here that maximal runs
miss, because every boundary in the pattern separates a space run from a
`\S` run. -/
def alignedSpacesAt (s : Str) : Bool :=
  let sp1 := s.takeWhile (fun c => c == ' ')
  if 3 ≤ sp1.length then
    let r1 := s.dropWhile (fun c => c == ' ')
    match r1 with
    | [] => false
    | c :: _ =>
      !jsIsWhitespace c &&
      (let r2 := r1.dropWhile (fun d => !jsIsWhitespace d)
       let sp2 := r2.takeWhile (fun d => d == ' ')
       decide (3 ≤ sp2.length) &&
       (match r2.dropWhile (fun d => d == ' ') with
        | [] => false
        | d :: _ => !jsIsWhitespace d))
  else false

/-- `/( {3,})(\S+)( {3,}\S+)/.test(line)`: some suffix starts a match. -/
def hasAlignedSpaces (line : Str) : Bool := line.tails.any alignedSpacesAt

/-- `containsTableLikeStructure`: at least two lines exhibiting pipe, tab
or aligned-space columns. -/
def containsTableLikeStructure (text : Str) : Bool :=
  decide (2 ≤ ((splitLines text).filter
    (fun line => hasPipeColumns line || hasTabColumns line ||
      hasAlignedSpaces line)).length)

/-- JS `Set` construction from an array: exact-equality deduplication
keeping first occurrences (auxiliary with a `seen` accumulator). -/
def dedupKeepFirstAux : List Str → List Str → List Str
  | _, [] => []
  | seen, v :: rest =>
    if v ∈ seen then dedupKeepFirstAux seen rest
    else v :: dedupKeepFirstAux (v :: seen) rest

/-- `[...new Set(l)]`: iteration order of a JS `Set` built from `l`. -/
def dedupKeepFirst (l : List Str) : List Str := dedupKeepFirstAux [] l

/-- Decimal digits of a natural number. -/
def natStr (n : ℕ) : Str := Nat.toDigits 10 n

/-- Rendering of an integer. -/
def intStr (i : ℤ) : Str :=
  if i < 0 then '-' :: natStr i.natAbs else natStr i.natAbs

/-- Rendering of a JS number into a template literal.  All numbers the
library interpolates into strings are integers, on which this agrees with
JS; for non-integers it falls back to `num/den` (no theorem below inspects
such a rendering). -/
def ratStr (q : ℚ) : Str :=
  if q.den = 1 then intStr q.num
  else intStr q.num ++ S "/" ++ natStr q.den

/-- `Number(x.toFixed(2))`: round to two decimal places.  ECMA `toFixed`
picks the integer `n` minimizing `|n/100 - x|`, the larger `n` on ties,
which is `⌊100x + 1/2⌋ / 100`. -/
def roundTo2 (q : ℚ) : ℚ := (⌊q * 100 + 1/2⌋ : ℚ) / 100

/-! ### `src/utils/skills.ts` -/

/-- `SkillAliases = Record<string, string[]>`: an ordered association list
from canonical skill names to alias lists (JS object key order). -/
abbrev SkillAliases := List (Str × List Str)

/-- Inner loop of `normalizeSkill` over `Object.entries(aliases)`. -/
def normalizeSkillAux (normalized : Str) : SkillAliases → Str
  | [] => normalized
  | (canonical, aliasList) :: rest =>
    if toLowerStr canonical = normalized then toLowerStr canonical
    else if aliasList.any (fun a => toLowerStr a == normalized) then
      toLowerStr canonical
    else normalizeSkillAux normalized rest

/-- `normalizeSkill`: trim + lowercase, then resolve through the alias
table (canonical name match first, then alias match, per entry). -/
def normalizeSkill (skill : Str) (aliases : SkillAliases) : Str :=
  normalizeSkillAux (toLowerStr (jsTrim skill)) aliases

/-- `normalizeSkills`: map `normalizeSkill` then `unique`. -/
def normalizeSkills (skills : List Str) (aliases : SkillAliases) : List Str :=
  unique (skills.map (fun skill => normalizeSkill skill aliases))

/-! ### `src/profiles.ts` -/

/-- `ATSProfile`. -/
structure ATSProfile where
  name : Str
  mandatorySkills : List Str
  optionalSkills : List Str
  minExperience : Option ℚ
deriving DecidableEq

/-- `defaultSkillAliases`. -/
def defaultSkillAliases : SkillAliases :=
  [(S "javascript", [S "js", S "node", S "node.js", S "nodejs"]),
   (S "typescript", [S "ts"]),
   (S "react", [S "reactjs", S "react.js"]),
   (S "c++", [S "cpp"]),
   (S "c#", [S "csharp"]),
   (S "python", [S "py"]),
   (S "sql", [S "postgres", S "mysql", S "sqlite"]),
   (S "graphql", [S "gql"]),
   (S "aws", [S "amazon web services"]),
   (S "azure", [S "microsoft azure"]),
   (S "gcp", [S "google cloud", S "google cloud platform"]),
   (S "docker", [S "containers"]),
   (S "kubernetes", [S "k8s"]),
   (S "html", [S "html5"]),
   (S "css", [S "css3"])]

/-- `softwareEngineerProfile`. -/
def softwareEngineerProfile : ATSProfile where
  name := S "software-engineer"
  mandatorySkills := [S "javascript", S "typescript", S "react", S "node"]
  optionalSkills := [S "graphql", S "sql", S "docker"]
  minExperience := some 3

/-! ### `src/utils/dates.ts` -/

/-- `ParsedDateRange` (`end` is a reserved word in Lean; the field is
named `endTok`). -/
structure ParsedDateRange where
  raw : Option Str
  start : Option Str
  endTok : Option Str
  durationInMonths : Option ℚ
deriving DecidableEq

/-- A parsed date token (`{ year, month? }`). -/
structure ParsedDateToken where
  year : ℤ
  month : Option ℕ
deriving DecidableEq

/-- The `MONTHS` record. -/
def MONTHS : List (Str × ℕ) :=
  [(S "jan", 1), (S "january", 1), (S "feb", 2), (S "february", 2),
   (S "mar", 3), (S "march", 3), (S "apr", 4), (S "april", 4),
   (S "may", 5), (S "jun", 6), (S "june", 6), (S "jul", 7), (S "july", 7),
   (S "aug", 8), (S "august", 8), (S "sep", 9), (S "sept", 9),
   (S "september", 9), (S "oct", 10), (S "october", 10), (S "nov", 11),
   (S "november", 11), (S "dec", 12), (S "december", 12)]

/-- ASCII lowercase letter (the `[a-z]` class; the scanned text is already
lowercased where this is used under an `/i` flag). -/
def isLowerAZ (c : Char) : Bool := 'a' ≤ c && c ≤ 'z'

/-- ASCII letter (the `[A-Za-z]` class). -/
def isAlphaAZ (c : Char) : Bool :=
  ('a' ≤ c && c ≤ 'z') || ('A' ≤ c && c ≤ 'Z')

/-- ASCII digit (the `\d` class). -/
def isDigit09 (c : Char) : Bool := '0' ≤ c && c ≤ '9'

/-- Value of a digit string (JS `Number.parseInt(_, 10)` on an
all-digit string). -/
def digitsToNat (s : Str) : ℕ :=
  s.foldl (fun acc c => acc * 10 + (c.toNat - '0'.toNat)) 0

/-- Tries `/([a-z]{3,9})\s*(\d{4})/` at the start of `s`, returning the
two groups.  The letter run must be the maximal one (a shorter run is
followed by a letter, which can match neither `\s` nor `\d`), likewise
the whitespace run. -/
def matchMonthYearAt (s : Str) : Option (Str × Str) :=
  let letters := s.takeWhile isLowerAZ
  if 3 ≤ letters.length ∧ letters.length ≤ 9 then
    let rest := (s.drop letters.length).dropWhile jsIsWhitespace
    let digits := rest.takeWhile isDigit09
    if 4 ≤ digits.length then some (letters, digits.take 4) else none
  else none

/-- Leftmost match of `/([a-z]{3,9})\s*(\d{4})/` in `s`. -/
def findMonthYear : Str → Option (Str × Str)
  | [] => none
  | c :: rest =>
    match matchMonthYearAt (c :: rest) with
    | some r => some r
    | none => findMonthYear rest

/-- Tries `/(20\d{2}|19\d{2})/` at the start of `s`. -/
def matchYearAt (s : Str) : Option Str :=
  match s with
  | c₁ :: c₂ :: c₃ :: c₄ :: _ =>
    if ((c₁ == '2' && c₂ == '0') || (c₁ == '1' && c₂ == '9')) &&
        isDigit09 c₃ && isDigit09 c₄ then
      some [c₁, c₂, c₃, c₄]
    else none
  | _ => none

/-- Leftmost match of `/(20\d{2}|19\d{2})/`. -/
def findYear : Str → Option Str
  | [] => none
  | c :: rest =>
    match matchYearAt (c :: rest) with
    | some r => some r
    | none => findYear rest

/-- `parseDateToken`. -/
def parseDateToken (raw : Str) : Option ParsedDateToken :=
  let cleaned := toLowerStr (jsTrim raw)
  match findMonthYear cleaned with
  | some (monthName, yearDigits) =>
    some { year := (digitsToNat yearDigits : ℤ), month := MONTHS.lookup monthName }
  | none =>
    match findYear cleaned with
    | some yearDigits => some { year := (digitsToNat yearDigits : ℤ), month := none }
    | none => none

/-- `monthsBetween`. -/
def monthsBetween (start finish : ParsedDateToken) : ℤ :=
  let startMonth : ℤ := (start.month.getD 1 : ℕ)
  let endMonth : ℤ := (finish.month.getD 12 : ℕ)
  (finish.year - start.year) * 12 + (endMonth - startMonth + 1)

/-- Modelled ambient clock: `new Date()` pinned to a fixed instant
(October 2026).  The current date is an input of the program; no claim
below depends on its value. -/
def jsNowYear : ℤ := 2026

/-- Month component of the modelled ambient clock (`getMonth() + 1`). -/
def jsNowMonth : ℕ := 10

/-- Tries group 1 of the range regex at the start of `s`:
`[A-Za-z]{3,9}\s+\d{4}` (first alternative, preferred) or `\d{4}`.
Returns the matched group text and the remaining input.  The two
alternatives start with a letter resp. a digit, so ordered alternation
cannot interact at one start position. -/
def matchRangeStartAt (s : Str) : Option (Str × Str) :=
  let letters := s.takeWhile isAlphaAZ
  let tryMonthYear : Option (Str × Str) :=
    if 3 ≤ letters.length ∧ letters.length ≤ 9 then
      let afterLetters := s.drop letters.length
      let ws := afterLetters.takeWhile jsIsWhitespace
      if 1 ≤ ws.length then
        let afterWs := afterLetters.drop ws.length
        let digits := afterWs.takeWhile isDigit09
        if 4 ≤ digits.length then
          some (letters ++ ws ++ digits.take 4, afterWs.drop 4)
        else none
      else none
    else none
  match tryMonthYear with
  | some r => some r
  | none =>
    let digits := s.takeWhile isDigit09
    if 4 ≤ digits.length then some (s.take 4, s.drop 4) else none

/-- Case-insensitive literal prefix match: on success, returns the
matched prefix (original case) and the rest. -/
def matchCIPrefix (pat : String) (s : Str) : Option (Str × Str) :=
  let n := (S pat).length
  if toLowerStr (s.take n) = toLowerStr (S pat) ∧ n ≤ s.length then
    some (s.take n, s.drop n)
  else none

/-- Tries group 2 of the range regex at the start of `s`:
`Present|Current|Now|[A-Za-z]{3,9}\s+\d{4}|\d{4}` (case-insensitive,
ordered alternation). -/
def matchRangeEndAt (s : Str) : Option Str :=
  match matchCIPrefix "present" s with
  | some (m, _) => some m
  | none =>
  match matchCIPrefix "current" s with
  | some (m, _) => some m
  | none =>
  match matchCIPrefix "now" s with
  | some (m, _) => some m
  | none => (matchRangeStartAt s).map (fun r => r.1)

/-- Tries the separator-and-end part `\s*(?:-|to|–|—)\s*(…)` of the range
regex, given the input remaining after group 1. -/
def matchRangeRestAt (s : Str) : Option Str :=
  let afterWs1 := s.dropWhile jsIsWhitespace
  let afterSep : Option Str :=
    match afterWs1 with
    | '-' :: r => some r
    | '–' :: r => some r
    | '—' :: r => some r
    | _ =>
      match matchCIPrefix "to" afterWs1 with
      | some (_, r) => some r
      | none => none
  match afterSep with
  | none => none
  | some r => matchRangeEndAt (r.dropWhile jsIsWhitespace)

/-- Tries the whole range regex at the start of `s`. -/
def matchRangeAt (s : Str) : Option (Str × Str) :=
  match matchRangeStartAt s with
  | none => none
  | some (g1, rest) =>
    match matchRangeRestAt rest with
    | none => none
    | some g2 => some (g1, g2)

/-- Leftmost match of the range regex
`/([A-Za-z]{3,9}\s+\d{4}|\d{4})\s*(?:-|to|–|—)\s*(Present|Current|Now|[A-Za-z]{3,9}\s+\d{4}|\d{4})/i`. -/
def findRange : Str → Option (Str × Str)
  | [] => none
  | c :: rest =>
    match matchRangeAt (c :: rest) with
    | some r => some r
    | none => findRange rest

/-- `parseDateRange`. -/
def parseDateRange (text : Str) : Option ParsedDateRange :=
  let normalized := jsTrim text
  match findRange normalized with
  | none => none
  | some (g1, g2) =>
    let isPresent :=
      containsSub (toLowerStr g2) (S "present") ||
      containsSub (toLowerStr g2) (S "current") ||
      containsSub (toLowerStr g2) (S "now")
    let endToken := if isPresent then none else parseDateToken g2
    match parseDateToken g1 with
    | none => none
    | some startToken =>
      let endTokenResolved :=
        endToken.getD { year := jsNowYear, month := some jsNowMonth }
      let durationInMonths := monthsBetween startToken endTokenResolved
      some { raw := some normalized
             start := some g1
             endTok := some (if isPresent then S "present" else g2)
             durationInMonths :=
               if 0 < durationInMonths then some (durationInMonths : ℚ) else none }

/-- `sumExperienceYears`. -/
def sumExperienceYears (ranges : List ParsedDateRange) : ℚ :=
  let months := (ranges.map (fun r => r.durationInMonths.getD 0)).sum
  roundTo2 (months / 12)

/-! ### `src/types/parser.ts`, `src/types/config.ts`, `src/types/scoring.ts` -/

/-- `ResumeSection`. -/
inductive ResumeSection where
  | summary | experience | skills | education | projects | certifications
deriving DecidableEq

/-- The string value of a `ResumeSection` literal. -/
def sectionName : ResumeSection → Str
  | .summary => S "summary"
  | .experience => S "experience"
  | .skills => S "skills"
  | .education => S "education"
  | .projects => S "projects"
  | .certifications => S "certifications"

/-- `ParsedExperienceEntry`. -/
structure ParsedExperienceEntry where
  title : Option Str := none
  company : Option Str := none
  location : Option Str := none
  dates : Option ParsedDateRange := none
  description : Option Str := none
deriving DecidableEq

/-- `ParsedResume` (the `Partial<Record<ResumeSection, string>>` section
content is an ordered association list, JS object key order). -/
structure ParsedResume where
  raw : Str
  normalizedText : Str
  detectedSections : List ResumeSection
  sectionContent : List (ResumeSection × Str)
  skills : List Str
  jobTitles : List Str
  actionVerbs : List Str
  educationEntries : List Str
  experience : List ParsedExperienceEntry
  totalExperienceYears : ℚ
  keywords : List Str
  warnings : List Str
deriving DecidableEq

/-- `ParsedJobDescription`. -/
structure ParsedJobDescription where
  raw : Str
  normalizedText : Str
  requiredSkills : List Str
  preferredSkills : List Str
  roleKeywords : List Str
  keywords : List Str
  minExperienceYears : Option ℚ
  educationRequirements : List Str
deriving DecidableEq

/-- `ATSWeights`. -/
structure ATSWeights where
  skills : ℚ
  experience : ℚ
  keywords : ℚ
  education : ℚ
deriving DecidableEq

/-- `NormalizedWeights`. -/
structure NormalizedWeights where
  skills : ℚ
  experience : ℚ
  keywords : ℚ
  education : ℚ
  normalizedTotal : ℚ
deriving DecidableEq

/-- `KeywordDensityConfig`. -/
structure KeywordDensityConfig where
  min : ℚ
  max : ℚ
  overusePenalty : ℚ
deriving DecidableEq

/-- `Required<SectionPenaltyConfig>` (the resolved form). -/
structure SectionPenaltiesResolved where
  missingSummary : ℚ
  missingExperience : ℚ
  missingSkills : ℚ
  missingEducation : ℚ
deriving DecidableEq

/-- `ATSBreakdown`. -/
structure ATSBreakdown where
  skills : ℚ
  experience : ℚ
  keywords : ℚ
  education : ℚ
deriving DecidableEq

/-- `RuleContext` (the read-only view handed to user rule predicates). -/
structure RuleContext where
  resume : ParsedResume
  job : ParsedJobDescription
  weights : NormalizedWeights
  keywordDensity : KeywordDensityConfig
  breakdown : Option ATSBreakdown
  matchedKeywords : Option (List Str)
  overusedKeywords : Option (List Str)

/-- `ATSRule` (user rule; the predicate is a total Lean function). -/
structure ATSRule where
  id : Str
  description : Option Str := none
  penalty : ℚ
  warning : Option Str := none
  condition : RuleContext → Bool

/-- `Partial<ATSWeights>` as it appears in `ATSConfig.weights`. -/
structure PartialWeights where
  skills : Option ℚ := none
  experience : Option ℚ := none
  keywords : Option ℚ := none
  education : Option ℚ := none

/-- `SectionPenaltyConfig` (all fields optional). -/
structure SectionPenaltyConfig where
  missingSummary : Option ℚ := none
  missingExperience : Option ℚ := none
  missingSkills : Option ℚ := none
  missingEducation : Option ℚ := none

/-- `ATSConfig` (the caller-supplied partial configuration). -/
structure ATSConfig where
  weights : Option PartialWeights := none
  skillAliases : Option SkillAliases := none
  profile : Option ATSProfile := none
  rules : Option (List ATSRule) := none
  keywordDensity : Option KeywordDensityConfig := none
  sectionPenalties : Option SectionPenaltyConfig := none
  allowPartialMatches : Option Bool := none

/-- `ResolvedATSConfig`. -/
structure ResolvedATSConfig where
  weights : NormalizedWeights
  skillAliases : SkillAliases
  profile : Option ATSProfile
  rules : List ATSRule
  keywordDensity : KeywordDensityConfig
  sectionPenalties : SectionPenaltiesResolved
  allowPartialMatches : Bool

/-! ### `src/core/scoring/weights.ts` -/

/-- `DEFAULT_WEIGHTS`. -/
def DEFAULT_WEIGHTS : ATSWeights :=
  { skills := 3/10, experience := 3/10, keywords := 1/4, education := 3/20 }

/-- `DEFAULT_KEYWORD_DENSITY` (`{ min: 0.0025, max: 0.04, overusePenalty: 5 }`). -/
def DEFAULT_KEYWORD_DENSITY : KeywordDensityConfig :=
  { min := 1/400, max := 1/25, overusePenalty := 5 }

/-- `DEFAULT_SECTION_PENALTIES`. -/
def DEFAULT_SECTION_PENALTIES : SectionPenaltiesResolved :=
  { missingSummary := 4, missingExperience := 10, missingSkills := 8,
    missingEducation := 6 }

/-- `normalizeWeights`. -/
def normalizeWeights (weights : ATSWeights) : NormalizedWeights :=
  let total := weights.skills + weights.experience + weights.keywords +
    weights.education
  if total = 0 then
    { skills := weights.skills, experience := weights.experience,
      keywords := weights.keywords, education := weights.education,
      normalizedTotal := 1 }
  else
    { skills := weights.skills / total, experience := weights.experience / total,
      keywords := weights.keywords / total, education := weights.education / total,
      normalizedTotal := 1 }

/-- JS object spread `{...base, ...overlay}` for string-keyed records:
base keys first (overridden values where the overlay has the key), then
the overlay's new keys in order. -/
def mergeRecord (base overlay : SkillAliases) : SkillAliases :=
  base.map (fun p => (p.1, ((overlay.lookup p.1).getD p.2))) ++
    overlay.filter (fun p => (base.lookup p.1).isNone)

/-- `resolveConfig` (`config = {}` is `ATSConfig` with every field
absent). -/
def resolveConfig (config : ATSConfig) : ResolvedATSConfig :=
  let weights : ATSWeights :=
    { skills := ((config.weights.bind (·.skills)).getD DEFAULT_WEIGHTS.skills),
      experience := ((config.weights.bind (·.experience)).getD DEFAULT_WEIGHTS.experience),
      keywords := ((config.weights.bind (·.keywords)).getD DEFAULT_WEIGHTS.keywords),
      education := ((config.weights.bind (·.education)).getD DEFAULT_WEIGHTS.education) }
  { weights := normalizeWeights weights
    skillAliases := mergeRecord defaultSkillAliases (config.skillAliases.getD [])
    profile := some (config.profile.getD softwareEngineerProfile)
    rules := config.rules.getD []
    keywordDensity := config.keywordDensity.getD DEFAULT_KEYWORD_DENSITY
    sectionPenalties :=
      { missingSummary :=
          ((config.sectionPenalties.bind (·.missingSummary)).getD
            DEFAULT_SECTION_PENALTIES.missingSummary)
        missingExperience :=
          ((config.sectionPenalties.bind (·.missingExperience)).getD
            DEFAULT_SECTION_PENALTIES.missingExperience)
        missingSkills :=
          ((config.sectionPenalties.bind (·.missingSkills)).getD
            DEFAULT_SECTION_PENALTIES.missingSkills)
        missingEducation :=
          ((config.sectionPenalties.bind (·.missingEducation)).getD
            DEFAULT_SECTION_PENALTIES.missingEducation) }
    allowPartialMatches := config.allowPartialMatches.getD true }

/-! ### `src/core/parser/resume.parser.ts` -/

/-- `SECTION_ALIASES` in `Object.entries` order. -/
def SECTION_ALIASES : List (ResumeSection × List Str) :=
  [(.summary, [S "summary", S "profile", S "about"]),
   (.experience, [S "experience", S "work experience",
     S "professional experience", S "employment"]),
   (.skills, [S "skills", S "technical skills", S "technologies"]),
   (.education, [S "education", S "academics", S "academic background"]),
   (.projects, [S "projects", S "portfolio"]),
   (.certifications, [S "certifications", S "licenses"])]

/-- `ACTION_VERBS`. -/
def ACTION_VERBS : List Str :=
  [S "led", S "managed", S "built", S "designed", S "implemented",
   S "developed", S "created", S "improved", S "optimized", S "launched",
   S "architected", S "delivered", S "shipped", S "collaborated",
   S "automated", S "mentored", S "modernized", S "reduced", S "increased"]

/-- The header pattern `new RegExp("^" + alias + "(\s*:)?$", "i")`: the
`\s` in the template literal is the unrecognized string escape `\s`,
which cooks to the plain letter `s`, so the pattern is
`^alias(s*:)?$` — the alias alone, or the alias followed by any number
of `s` characters and a colon.  Tested against the lowercased line. -/
def matchesHeaderAlias (normalized al : Str) : Bool :=
  normalized == al ||
  (al.isPrefixOf normalized &&
    ((normalized.drop al.length).dropWhile (fun c => c == 's')) == [':'])

/-- `detectSection`. -/
def detectSection (line : Str) : Option ResumeSection :=
  let normalized := toLowerStr line
  (SECTION_ALIASES.find? (fun p =>
    p.2.any (fun al => matchesHeaderAlias normalized al))).map (·.1)

/-- Exact-equality dedup on section tags (the source applies the string
`unique` to the detected-section array; section names are lowercase and
pairwise distinct, so case-insensitive dedup coincides with exact
dedup). -/
def sectionDedupAux : List ResumeSection → List ResumeSection → List ResumeSection
  | _, [] => []
  | seen, v :: rest =>
    if v ∈ seen then sectionDedupAux seen rest
    else v :: sectionDedupAux (v :: seen) rest

/-- `unique(detected)` on `ResumeSection[]`. -/
def sectionDedup (l : List ResumeSection) : List ResumeSection :=
  sectionDedupAux [] l

/-- `sections[current] = value`: JS object assignment keeps the original
key position on overwrite, appends otherwise. -/
def upsertSection (l : List (ResumeSection × Str)) (k : ResumeSection)
    (v : Str) : List (ResumeSection × Str) :=
  if l.any (fun p => p.1 = k) then
    l.map (fun p => if p.1 = k then (k, v) else p)
  else l ++ [(k, v)]

/-- The `flush` closure of `extractSections`: writes the buffer as the
current section's content and clears the buffer — but only when a
current section exists (a buffer accumulated before the first header is
left in place). -/
def flushSection (sections : List (ResumeSection × Str))
    (current : Option ResumeSection) (buffer : List Str) :
    List (ResumeSection × Str) × List Str :=
  match current with
  | some c => (upsertSection sections c (jsTrim ((S "\n").intercalate buffer)), [])
  | none => (sections, buffer)

/-- The line loop of `extractSections`. -/
def extractSectionsAux :
    List Str → Option ResumeSection → List Str →
    List (ResumeSection × Str) → List ResumeSection →
    List (ResumeSection × Str) × List ResumeSection
  | [], current, buffer, sections, detected =>
    ((flushSection sections current buffer).1, detected)
  | line :: rest, current, buffer, sections, detected =>
    match detectSection line with
    | some sec =>
      let flushed := flushSection sections current buffer
      extractSectionsAux rest (some sec) flushed.2 flushed.1 (detected ++ [sec])
    | none =>
      extractSectionsAux rest current (buffer ++ [line]) sections detected

/-- `extractSections`. -/
def extractSections (text : Str) :
    List (ResumeSection × Str) × List ResumeSection :=
  let r := extractSectionsAux (splitLines text) none [] [] []
  (r.1, sectionDedup r.2)

/-- `parseSkills`: split the skills section on `/[,;\n]/`, trim, drop
empties (JS `split` keeps empty fragments, removed by the filter), then
`normalizeSkills`. -/
def parseSkills (sectionContent : Option Str) (aliases : SkillAliases) :
    List Str :=
  match sectionContent with
  | none => []
  | some content =>
    let raw := ((chunksBy (fun c => !(c == ',' || c == ';' || c == '\n')) content).map
      jsTrim).filter (fun s => !s.isEmpty)
    normalizeSkills raw aliases

/-- `parseActionVerbs`. -/
def parseActionVerbs (text : Str) : List Str :=
  let words := tokenize text
  ACTION_VERBS.filter (fun verb => words.contains verb)

/-- The title regex
`/^(Senior|Lead|Principal|Staff|Software|Full\s*Stack|Frontend|Backend|Engineer|Developer|Manager|Analyst)[^,-]*/i`:
tries each alternative (case-insensitively) at the start of the line and
returns the whole match `alternative ++ [^,-]*`. -/
def matchTitleStart (line : Str) : Option Str :=
  let simpleAlt (pat : String) : Option Str :=
    (matchCIPrefix pat line).map (fun r => r.1)
  let fullStackAlt : Option Str :=
    match matchCIPrefix "full" line with
    | none => none
    | some (m1, r1) =>
      let ws := r1.takeWhile jsIsWhitespace
      match matchCIPrefix "stack" (r1.drop ws.length) with
      | none => none
      | some (m2, _) => some (m1 ++ ws ++ m2)
    -- `\s*` is forced maximal: a shorter run leaves a whitespace
    -- character where `stack`'s `s` must match.
  let firstAlt :=
    (simpleAlt "senior").orElse fun _ =>
    (simpleAlt "lead").orElse fun _ =>
    (simpleAlt "principal").orElse fun _ =>
    (simpleAlt "staff").orElse fun _ =>
    (simpleAlt "software").orElse fun _ =>
    fullStackAlt.orElse fun _ =>
    (simpleAlt "frontend").orElse fun _ =>
    (simpleAlt "backend").orElse fun _ =>
    (simpleAlt "engineer").orElse fun _ =>
    (simpleAlt "developer").orElse fun _ =>
    (simpleAlt "manager").orElse fun _ =>
    simpleAlt "analyst"
  firstAlt.map (fun alt =>
    alt ++ (line.drop alt.length).takeWhile (fun c => !(c == ',' || c == '-')))

/-- State threaded through the `parseExperience` line loop. -/
structure ExperienceAcc where
  entries : List ParsedExperienceEntry
  rangesInMonths : List ℚ
  jobTitles : List Str

/-- One iteration of the `parseExperience` loop. -/
def parseExperienceStep (acc : ExperienceAcc) (line : Str) : ExperienceAcc :=
  match parseDateRange line with
  | some range =>
    let entries :=
      match acc.entries.getLast? with
      | some previous =>
        if previous.dates.isNone then
          acc.entries.dropLast ++ [{ previous with dates := some range }]
        else acc.entries ++ [{ dates := some range }]
      | none => acc.entries ++ [{ dates := some range }]
    let rangesInMonths :=
      match range.durationInMonths with
      | some d => acc.rangesInMonths ++ [d]
      | none => acc.rangesInMonths
    { acc with entries := entries, rangesInMonths := rangesInMonths }
  | none =>
    match matchTitleStart line with
    | some matched =>
      let title := jsTrim matched
      { acc with
        entries := acc.entries ++ [{ title := some title, description := some line }],
        jobTitles := acc.jobTitles ++ [toLowerStr title] }
    | none =>
      match acc.entries.getLast? with
      | some current =>
        -- `[current.description, line].filter(Boolean).join(" ").trim()`
        let parts :=
          (match current.description with
           | some d => if d.isEmpty then [] else [d]
           | none => []) ++ (if line.isEmpty then [] else [line])
        let newDescription := jsTrim ((S " ").intercalate parts)
        { acc with entries :=
            acc.entries.dropLast ++ [{ current with description := some newDescription }] }
      | none => acc

/-- `parseExperience`. -/
def parseExperience (sectionContent : Option Str) : ExperienceAcc :=
  match sectionContent with
  | none => { entries := [], rangesInMonths := [], jobTitles := [] }
  | some content =>
    let r := (splitLines content).foldl parseExperienceStep
      { entries := [], rangesInMonths := [], jobTitles := [] }
    { r with jobTitles := unique r.jobTitles }

/-- `parseEducation`. -/
def parseEducation (sectionContent : Option Str) : List Str :=
  match sectionContent with
  | none => []
  | some content => (splitLines content).map normalizeForComparison

/-- `collectKeywords`. -/
def collectKeywords (text : Str) : List Str := unique (tokenize text)

/-- The warnings loop of `parseResume` over the four required sections. -/
def requiredSectionWarnings (detected : List ResumeSection) : List Str :=
  ([ResumeSection.summary, .experience, .skills, .education].filter
    (fun sec => !detected.contains sec)).map
    (fun sec => sectionName sec ++ S " section not detected")

/-- `parseResume`. -/
def parseResume (resumeText : Str) (config : ResolvedATSConfig) : ParsedResume :=
  let normalizedText := normalizeWhitespace resumeText
  let extracted := extractSections resumeText
  let sections := extracted.1
  let detected := extracted.2
  let skills := parseSkills (sections.lookup .skills) config.skillAliases
  let actionVerbs := parseActionVerbs normalizedText
  let experienceData := parseExperience (sections.lookup .experience)
  let educationEntries := parseEducation (sections.lookup .education)
  let totalExperienceYears :=
    sumExperienceYears (experienceData.entries.filterMap (fun e => e.dates))
  { raw := resumeText
    normalizedText := normalizedText
    detectedSections := detected
    sectionContent := sections
    skills := skills
    jobTitles := experienceData.jobTitles
    actionVerbs := actionVerbs
    educationEntries := educationEntries
    experience := experienceData.entries
    totalExperienceYears := totalExperienceYears
    keywords := collectKeywords normalizedText
    warnings := requiredSectionWarnings detected }

/-! ### `src/core/parser/jd.parser.ts` -/

/-- `DEGREE_KEYWORDS`. -/
def DEGREE_KEYWORDS : List Str :=
  [S "bachelor", S "b.s", S "bs", S "bsc", S "master", S "m.s", S "ms",
   S "msc", S "phd", S "doctorate", S "mba", S "associate"]

/-- `/must|require|required|need/i.test(line)` (the `required`
alternative is subsumed by `require`). -/
def hasRequirementLanguage (line : Str) : Bool :=
  let l := toLowerStr line
  containsSub l (S "must") || containsSub l (S "require") ||
  containsSub l (S "need")

/-- `/preferred|nice to have|plus/i.test(line)`. -/
def hasPreferenceLanguage (line : Str) : Bool :=
  let l := toLowerStr line
  containsSub l (S "preferred") || containsSub l (S "nice to have") ||
  containsSub l (S "plus")

/-- Fragments of a line split on `/[,.;•-]/`, trimmed, empties dropped
(the final `filter(Boolean)` of the extractors). -/
def splitRequirementFragments (line : Str) : List Str :=
  ((chunksBy (fun c =>
      !(c == ',' || c == '.' || c == ';' || c == '•' || c == '-')) line).map
    jsTrim).filter (fun s => !s.isEmpty)

/-- `extractRequiredSkills`. -/
def extractRequiredSkills (lines : List Str) : List Str :=
  (lines.filter hasRequirementLanguage).flatMap splitRequirementFragments

/-- `extractPreferredSkills`. -/
def extractPreferredSkills (lines : List Str) : List Str :=
  (lines.filter hasPreferenceLanguage).flatMap splitRequirementFragments

/-- The role-noun alternatives of
`/(engineer|developer|manager|scientist|analyst|designer|architect)/i`. -/
def ROLE_NOUNS : List String :=
  ["engineer", "developer", "manager", "scientist", "analyst", "designer",
   "architect"]

/-- Leftmost case-insensitive occurrence of a role noun; returns the
matched text in its original case (`roleMatch[0]`). -/
def findRoleNoun : Str → Option Str
  | [] => none
  | c :: rest =>
    match ROLE_NOUNS.findSome? (fun pat =>
      (matchCIPrefix pat (c :: rest)).map (fun r => r.1)) with
    | some m => some m
    | none => findRoleNoun rest

/-- `text.split(/\n/)[0]` (raw split on newline characters only, no
trimming; an empty text yields the empty first line). -/
def firstRawLine (text : Str) : Str := text.takeWhile (fun c => !(c == '\n'))

/-- `extractRoleKeywords`.  A matched role noun contains no whitespace,
so `titleTokens.join(" ")` is the noun itself; an absent match gives the
empty join, which is falsy and falls back to the first raw line. -/
def extractRoleKeywords (text : Str) : List Str :=
  match findRoleNoun text with
  | some noun => unique (tokenize noun)
  | none => unique (tokenize (firstRawLine text))

/-- Tries `/(\d{1,2})\+?\s+(?:years|yrs)/i` at the start of `s`,
returning group 1.  `\d{1,2}` is greedy with backtracking: two digits
are taken when the continuation matches, else one. -/
def matchMinExperienceAt (s : Str) : Option Str :=
  let tryDigits (digits : Str) (rest : Str) : Option Str :=
    let afterPlus := match rest with
      | '+' :: r => r
      | _ => rest
    let ws := afterPlus.takeWhile jsIsWhitespace
    if 1 ≤ ws.length then
      let tail := afterPlus.drop ws.length
      if (S "years").isPrefixOf (toLowerStr (tail.take 5)) ∨
          (S "yrs").isPrefixOf (toLowerStr (tail.take 3)) then
        some digits
      else none
    else none
  match s with
  | c₁ :: c₂ :: rest =>
    if isDigit09 c₁ && isDigit09 c₂ then
      match tryDigits [c₁, c₂] rest with
      | some g => some g
      | none => tryDigits [c₁] (c₂ :: rest)
    else if isDigit09 c₁ then tryDigits [c₁] (c₂ :: rest)
    else none
  | [_] => none
  | [] => none

/-- Leftmost match of `/(\d{1,2})\+?\s+(?:years|yrs)/i`. -/
def findMinExperience : Str → Option Str
  | [] => none
  | c :: rest =>
    match matchMinExperienceAt (c :: rest) with
    | some g => some g
    | none => findMinExperience rest

/-- `extractMinExperience`. -/
def extractMinExperience (text : Str) : Option ℚ :=
  (findMinExperience text).map (fun digits => (digitsToNat digits : ℚ))

/-- `extractEducationRequirements`. -/
def extractEducationRequirements (text : Str) : List Str :=
  let normalized := normalizeForComparison text
  DEGREE_KEYWORDS.filter (fun degree => containsSub normalized degree)

/-- `parseJobDescription`. -/
def parseJobDescription (jobDescription : Str) (config : ResolvedATSConfig) :
    ParsedJobDescription :=
  let normalizedText := normalizeWhitespace jobDescription
  let lines := splitLines jobDescription
  let requiredSkills := normalizeSkills (extractRequiredSkills lines) config.skillAliases
  let preferredSkills := normalizeSkills (extractPreferredSkills lines) config.skillAliases
  { raw := jobDescription
    normalizedText := normalizedText
    requiredSkills := requiredSkills
    preferredSkills := preferredSkills
    roleKeywords := extractRoleKeywords jobDescription
    keywords := unique (requiredSkills ++ preferredSkills ++ tokenize normalizedText)
    minExperienceYears := extractMinExperience jobDescription
    educationRequirements := extractEducationRequirements jobDescription }

/-! ### `src/core/scoring/scorer.ts` -/

/-- `REQUIRED_SKILL_WEIGHT = 0.7`. -/
def REQUIRED_SKILL_WEIGHT : ℚ := 7/10

/-- `OPTIONAL_SKILL_WEIGHT = 0.3`. -/
def OPTIONAL_SKILL_WEIGHT : ℚ := 3/10

/-- `EXPERIENCE_YEARS_WEIGHT = 0.75`. -/
def EXPERIENCE_YEARS_WEIGHT : ℚ := 3/4

/-- `EXPERIENCE_ROLE_WEIGHT = 0.25`. -/
def EXPERIENCE_ROLE_WEIGHT : ℚ := 1/4

/-- The `required` set of `scoreSkills`:
`new Set(normalizeSkills([...job.requiredSkills, ...profileRequired], aliases))`. -/
def skillsRequired (job : ParsedJobDescription) (config : ResolvedATSConfig) :
    List Str :=
  let profileRequired := (config.profile.map (·.mandatorySkills)).getD []
  dedupKeepFirst (normalizeSkills (job.requiredSkills ++ profileRequired)
    config.skillAliases)

/-- The `optional` set of `scoreSkills`. -/
def skillsOptional (job : ParsedJobDescription) (config : ResolvedATSConfig) :
    List Str :=
  let profileOptional := (config.profile.map (·.optionalSkills)).getD []
  dedupKeepFirst (normalizeSkills (job.preferredSkills ++ profileOptional)
    config.skillAliases)

/-- The `resumeSkills` set of `scoreSkills`. -/
def resumeSkillSet (resume : ParsedResume) (config : ResolvedATSConfig) :
    List Str :=
  dedupKeepFirst (normalizeSkills resume.skills config.skillAliases)

/-- `requiredCoverage` in `scoreSkills`. -/
def skillsRequiredCoverage (resume : ParsedResume) (job : ParsedJobDescription)
    (config : ResolvedATSConfig) : ℚ :=
  let required := skillsRequired job config
  let matchedRequired := required.filter
    (fun skill => (resumeSkillSet resume config).contains skill)
  if required.length = 0 then 1
  else (matchedRequired.length : ℚ) / (required.length : ℚ)

/-- `optionalCoverage` in `scoreSkills`. -/
def skillsOptionalCoverage (resume : ParsedResume) (job : ParsedJobDescription)
    (config : ResolvedATSConfig) : ℚ :=
  let opt := skillsOptional job config
  let matchedOptional := opt.filter
    (fun skill => (resumeSkillSet resume config).contains skill)
  if opt.length = 0 then 1
  else (matchedOptional.length : ℚ) / (opt.length : ℚ)

/-- Result record of `scoreSkills`. -/
structure SkillScore where
  score : ℚ
  missing : List Str
deriving DecidableEq

/-- `scoreSkills`. -/
def scoreSkills (resume : ParsedResume) (job : ParsedJobDescription)
    (config : ResolvedATSConfig) : SkillScore :=
  { score := clamp
      ((skillsRequiredCoverage resume job config * REQUIRED_SKILL_WEIGHT +
        skillsOptionalCoverage resume job config * OPTIONAL_SKILL_WEIGHT) * 100)
      0 100
    missing := (skillsRequired job config).filter
      (fun skill => !(resumeSkillSet resume config).contains skill) }

/-- Result record of `scoreExperience`. -/
structure ExperienceScore where
  score : ℚ
  missingYears : ℚ
deriving DecidableEq

/-- `scoreExperience`.  `if (!requiredYears)` is a JS truthiness test on
a number: only `0` (and absence, through the `?? 0` default) takes the
early branch. -/
def scoreExperience (resume : ParsedResume) (job : ParsedJobDescription)
    (config : ResolvedATSConfig) : ExperienceScore :=
  let requiredYears :=
    (job.minExperienceYears.orElse
      (fun _ => config.profile.bind (·.minExperience))).getD 0
  if requiredYears = 0 then { score := 100, missingYears := 0 }
  else
    let yearCoverage := clamp (resume.totalExperienceYears / requiredYears) 0 2
    let yearsComponent := clamp yearCoverage 0 1 * EXPERIENCE_YEARS_WEIGHT
    let jobRoleSet := dedupKeepFirst (job.roleKeywords.map toLowerStr)
    let titleMatches := resume.jobTitles.filter
      (fun title => jobRoleSet.contains (toLowerStr title))
    let titleCoverage :=
      if jobRoleSet.length = 0 then 1
      else (titleMatches.length : ℚ) / (jobRoleSet.length : ℚ)
    let roleComponent := clamp titleCoverage 0 1 * EXPERIENCE_ROLE_WEIGHT
    { score := clamp ((yearsComponent + roleComponent) * 100) 0 100
      missingYears := roundTo2 (max (requiredYears - resume.totalExperienceYears) 0) }

/-- Result record of `scoreKeywords`. -/
structure KeywordScore where
  score : ℚ
  matchedKeywords : List Str
  missingKeywords : List Str
  overusedKeywords : List Str
deriving DecidableEq

/-- `new Set(job.keywords.map(toLowerCase))` as an iteration list. -/
def jobKeywordList (job : ParsedJobDescription) : List Str :=
  dedupKeepFirst (job.keywords.map toLowerStr)

/-- `scoreKeywords`. -/
def scoreKeywords (resume : ParsedResume) (job : ParsedJobDescription)
    (config : ResolvedATSConfig) : KeywordScore :=
  let jobKeywords := jobKeywordList job
  if jobKeywords.length = 0 then
    { score := 100, matchedKeywords := [], missingKeywords := [],
      overusedKeywords := [] }
  else
    let resumeTokens := tokenize resume.normalizedText
    let matchedKeywords := jobKeywords.filter
      (fun keyword => resumeTokens.contains keyword)
    let missingKeywords := jobKeywords.filter
      (fun keyword => !resumeTokens.contains keyword)
    let coverage := (matchedKeywords.length : ℚ) / (jobKeywords.length : ℚ)
    -- `resumeTokens.length || 1`
    let totalTokens : ℚ :=
      if resumeTokens.length = 0 then 1 else (resumeTokens.length : ℚ)
    let overusedKeywords := matchedKeywords.filter (fun keyword =>
      decide (config.keywordDensity.max <
        (countFreq resumeTokens keyword : ℚ) / totalTokens))
    { score := clamp (coverage * 100) 0 100
      matchedKeywords := unique matchedKeywords
      missingKeywords := unique missingKeywords
      overusedKeywords := unique overusedKeywords }

/-- `scoreEducation`. -/
def scoreEducation (resume : ParsedResume) (job : ParsedJobDescription) : ℚ :=
  if job.educationRequirements.length = 0 then 100
  else
    let resumeEducationText := (S " ").intercalate resume.educationEntries
    let normalizedEducation := toLowerStr resumeEducationText
    let matched := job.educationRequirements.filter
      (fun requirement => containsSub normalizedEducation (toLowerStr requirement))
    if matched.length = 0 then 0
    else clamp ((matched.length : ℚ) / (job.educationRequirements.length : ℚ) * 100)
      0 100

/-- `ScoreComputation` (extends `ATSAnalysisResult` in the source; the
result fields are inlined). -/
structure ScoreComputation where
  score : ℚ
  breakdown : ATSBreakdown
  matchedKeywords : List Str
  missingKeywords : List Str
  overusedKeywords : List Str
  suggestions : List Str
  warnings : List Str
  missingSkills : List Str
  missingExperienceYears : ℚ
  educationScore : ℚ
deriving DecidableEq

/-- `calculateScore`. -/
def calculateScore (resume : ParsedResume) (job : ParsedJobDescription)
    (config : ResolvedATSConfig) : ScoreComputation :=
  let skillsResult := scoreSkills resume job config
  let experienceResult := scoreExperience resume job config
  let keywordResult := scoreKeywords resume job config
  let educationScore := scoreEducation resume job
  let breakdown : ATSBreakdown :=
    { skills := skillsResult.score
      experience := experienceResult.score
      keywords := keywordResult.score
      education := educationScore }
  let weightedScore :=
    breakdown.skills * config.weights.skills +
    breakdown.experience * config.weights.experience +
    breakdown.keywords * config.weights.keywords +
    breakdown.education * config.weights.education
  { score := clamp (roundTo2 weightedScore) 0 100
    breakdown := breakdown
    matchedKeywords := keywordResult.matchedKeywords
    missingKeywords := keywordResult.missingKeywords
    overusedKeywords := keywordResult.overusedKeywords
    suggestions := []
    warnings := []
    missingSkills := skillsResult.missing
    missingExperienceYears := experienceResult.missingYears
    educationScore := educationScore }

/-! ### `src/core/rules/rule.engine.ts` -/

/-- `RuleEvaluationInput`. -/
structure RuleEvaluationInput where
  resume : ParsedResume
  job : ParsedJobDescription
  breakdown : Option ATSBreakdown := none
  matchedKeywords : Option (List Str) := none
  overusedKeywords : Option (List Str) := none

/-- `RuleEvaluationResult`. -/
structure RuleEvaluationResult where
  totalPenalty : ℚ
  warnings : List Str
deriving DecidableEq

/-- The per-section penalty table of `applySectionPenalties`
(`projects`/`certifications` map to 0). -/
def penaltyBySection (config : ResolvedATSConfig) : ResumeSection → ℚ
  | .summary => config.sectionPenalties.missingSummary
  | .experience => config.sectionPenalties.missingExperience
  | .skills => config.sectionPenalties.missingSkills
  | .education => config.sectionPenalties.missingEducation
  | .projects => 0
  | .certifications => 0

/-- `RuleEngine.applySectionPenalties`. -/
def applySectionPenalties (config : ResolvedATSConfig) (resume : ParsedResume) :
    RuleEvaluationResult :=
  let missing := [ResumeSection.summary, .experience, .skills, .education].filter
    (fun sec => !resume.detectedSections.contains sec)
  { totalPenalty := (missing.map (penaltyBySection config)).sum
    warnings := missing.map (fun sec =>
      sectionName sec ++ S " section missing (penalty " ++
        ratStr (penaltyBySection config sec) ++ S ")") }

/-- `RuleEngine.applyDefaultRules`. -/
def applyDefaultRules (config : ResolvedATSConfig)
    (input : RuleEvaluationInput) : RuleEvaluationResult :=
  let sectionResult := applySectionPenalties config input.resume
  let tablePenalty : ℚ :=
    if containsTableLikeStructure input.resume.raw then 8 else 0
  let tableWarnings : List Str :=
    if containsTableLikeStructure input.resume.raw then
      [S "Detected table-like or columnar formatting (penalty 8)"] else []
  let overused := input.overusedKeywords.getD []
  let stuffingPenalty : ℚ :=
    if overused.length ≠ 0 then
      (overused.length : ℚ) * config.keywordDensity.overusePenalty
    else 0
  let stuffingWarnings : List Str :=
    if overused.length ≠ 0 then
      [S "Keyword stuffing detected for: " ++ (S ", ").intercalate overused ++
        S " (penalty " ++ ratStr stuffingPenalty ++ S ")"]
    else []
  let fewSectionsPenalty : ℚ :=
    if input.resume.detectedSections.length < 3 then 5 else 0
  let fewSectionsWarnings : List Str :=
    if input.resume.detectedSections.length < 3 then
      [S "Few recognizable sections found (penalty 5)"] else []
  { totalPenalty := sectionResult.totalPenalty + tablePenalty +
      stuffingPenalty + fewSectionsPenalty
    warnings := sectionResult.warnings ++ tableWarnings ++ stuffingWarnings ++
      fewSectionsWarnings }

/-- `RuleEngine.evaluate` (user rules run after the default rules, in
declaration order). -/
def ruleEvaluate (config : ResolvedATSConfig) (input : RuleEvaluationInput) :
    RuleEvaluationResult :=
  let defaultResult := applyDefaultRules config input
  let context : RuleContext :=
    { resume := input.resume, job := input.job, weights := config.weights,
      keywordDensity := config.keywordDensity, breakdown := input.breakdown,
      matchedKeywords := input.matchedKeywords,
      overusedKeywords := input.overusedKeywords }
  let fired := config.rules.filter (fun rule => rule.condition context)
  { totalPenalty := defaultResult.totalPenalty + (fired.map (·.penalty)).sum
    warnings := defaultResult.warnings ++ fired.filterMap (·.warning) }

/-! ### `src/core/suggestions/suggestion.engine.ts` -/

/-- `formatList` (the default cap `max = 6` is always used). -/
def formatList (values : List Str) : Str :=
  let uniqueValues := dedupKeepFirst values
  let trimmed := uniqueValues.take 6
  (S ", ").intercalate trimmed ++
    (if 6 < uniqueValues.length then S "..." else [])

/-- `SuggestionInput`. -/
structure SuggestionInput where
  resume : ParsedResume
  job : ParsedJobDescription
  score : ScoreComputation
  ruleWarnings : List Str

/-- Result record of `SuggestionEngine.generate`. -/
structure SuggestionResult where
  suggestions : List Str
  warnings : List Str
deriving DecidableEq

/-- `SuggestionEngine.generate`. -/
def suggestionGenerate (input : SuggestionInput) : SuggestionResult :=
  let s₁ : List Str :=
    if input.score.missingSkills.length ≠ 0 then
      [S "Highlight these required skills: " ++ formatList input.score.missingSkills]
    else []
  let s₂ : List Str :=
    if input.score.missingKeywords.length ≠ 0 then
      [S "Incorporate job-specific keywords: " ++ formatList input.score.missingKeywords]
    else []
  let s₃ : List Str :=
    if input.score.overusedKeywords.length ≠ 0 then
      [S "Avoid keyword stuffing for: " ++ formatList input.score.overusedKeywords]
    else []
  let s₄ : List Str :=
    if 0 < input.score.missingExperienceYears then
      [S "Clarify at least " ++
        ratStr (input.job.minExperienceYears.getD input.score.missingExperienceYears) ++
        S " years of relevant experience with quantified achievements."]
    else []
  let s₅ : List Str :=
    if input.job.educationRequirements.length ≠ 0 ∧ input.score.educationScore = 0 then
      [S "State your education credentials matching: " ++
        formatList input.job.educationRequirements]
    else []
  let s₆ : List Str :=
    if input.resume.actionVerbs.length < 3 then
      [S "Strengthen bullet points with impact verbs (led, built, improved, delivered)."]
    else []
  { suggestions := s₁ ++ s₂ ++ s₃ ++ s₄ ++ s₅ ++ s₆
    warnings := input.ruleWarnings ++ input.resume.warnings }

/-! ### `src/types/llm.ts` and the JSON values crossing the LLM boundary -/

/-- JSON values, as produced by `JSON.parse` or returned structurally by
a client. -/
inductive Json where
  | null
  | bool (b : Bool)
  | num (q : ℚ)
  | str (s : Str)
  | arr (elems : List Json)
  | obj (fields : List (Str × Json))

/-- JS truthiness of a JSON value. -/
def jsTruthy : Json → Bool
  | .null => false
  | .bool b => b
  | .num q => decide (q ≠ 0)
  | .str s => !s.isEmpty
  | .arr _ => true
  | .obj _ => true

/-- JS truthiness of a possibly-undefined value. -/
def jsTruthyOpt : Option Json → Bool
  | some j => jsTruthy j
  | none => false

/-- `obj[key]` for string keys (arrays and primitives have no modelled
string-keyed properties; numeric-string keys on arrays are not used by
the library). -/
def getField : Json → Str → Option Json
  | .obj fields, key => fields.lookup key
  | _, _ => none

/-- `JSONSchema` (`type`, optional `properties`/`required`/`items`; the
`description` annotations are inert for the validator and omitted). -/
inductive JSONSchema where
  | mk (type : Str) (properties : Option (List (Str × JSONSchema)))
       (required : Option (List Str)) (items : Option JSONSchema)

/-- The `type` field of a schema. -/
def JSONSchema.type : JSONSchema → Str
  | .mk t _ _ _ => t

/-- The `properties` field of a schema. -/
def JSONSchema.properties : JSONSchema → Option (List (Str × JSONSchema))
  | .mk _ p _ _ => p

/-- The `required` field of a schema. -/
def JSONSchema.required : JSONSchema → Option (List Str)
  | .mk _ _ r _ => r

/-- The `items` field of a schema. -/
def JSONSchema.items : JSONSchema → Option JSONSchema
  | .mk _ _ _ i => i

/-! ### `src/llm/validation.ts` -/

/-- Element-wise item-type checks of the `array` case of
`validateJsonSchema` (`typeof item === "object" && item !== null` admits
both objects and arrays). -/
def checkItemType (itemType : Str) (elems : List Json) : Bool :=
  if itemType == S "string" then
    elems.all (fun e => match e with | .str _ => true | _ => false)
  else if itemType == S "number" then
    elems.all (fun e => match e with | .num _ => true | _ => false)
  else if itemType == S "object" then
    elems.all (fun e => match e with | .obj _ => true | .arr _ => true | _ => false)
  else true

/-- The per-property `switch` of `validateJsonSchema`.  An absent or
empty `type` is falsy and skips the check; unknown types are
permissive. -/
def checkPropValue (value : Json) (propSchema : JSONSchema) : Bool :=
  let expectedType := propSchema.type
  if expectedType.isEmpty then true
  else if expectedType == S "string" then
    (match value with | .str _ => true | _ => false)
  else if expectedType == S "number" then
    (match value with | .num _ => true | _ => false)
  else if expectedType == S "boolean" then
    (match value with | .bool _ => true | _ => false)
  else if expectedType == S "array" then
    (match value with
     | .arr elems =>
       (match propSchema.items with
        | some it => if it.type.isEmpty then true else checkItemType it.type elems
        | none => true)
     | _ => false)
  else if expectedType == S "object" then
    (match value with | .obj _ => true | .arr _ => true | _ => false)
  else true

/-- `validateJsonSchema`.  `typeof data === "object" && data !== null`
admits objects and arrays; an array has none of the library's
(non-numeric) required keys and none of its declared properties. -/
def validateJsonSchema (data : Json) (schema : JSONSchema) : Bool :=
  if schema.type != S "object" then false
  else
    match data with
    | .obj fields =>
      (match schema.required with
       | some reqs => reqs.all (fun r => (fields.lookup r).isSome)
       | none => true) &&
      (match schema.properties with
       | some props => props.all (fun p =>
           match fields.lookup p.1 with
           | none => true
           | some v => checkPropValue v p.2)
       | none => true)
    | .arr _ =>
      (match schema.required with
       | some reqs => reqs.isEmpty
       | none => true)
    | _ => false

/-! ### `src/llm/llm.budget.ts` -/

/-- `LLMBudget`. -/
structure LLMBudget where
  maxCalls : ℚ
  maxTokensPerCall : ℚ
  maxTotalTokens : ℚ
deriving DecidableEq

/-- The mutable counters of an `LLMBudgetManager` instance. -/
structure BudgetState where
  callCount : ℚ
  totalTokensUsed : ℚ
deriving DecidableEq

/-- A freshly constructed `LLMBudgetManager`'s counters. -/
def initBudgetState : BudgetState := { callCount := 0, totalTokensUsed := 0 }

/-- `LLMBudgetManager.assertCanCall`: returns the thrown error's message,
or `none` when the call is allowed.  It reads but never writes the
counters (its Lean type takes the state and returns none of it). -/
def assertCanCall (limits : LLMBudget) (st : BudgetState)
    (requestedTokens : ℚ) : Option Str :=
  if limits.maxCalls ≤ st.callCount then
    some (S "LLM call limit exceeded: " ++ ratStr st.callCount ++ S "/" ++
      ratStr limits.maxCalls ++ S " calls used")
  else if limits.maxTokensPerCall < requestedTokens then
    some (S "Requested tokens " ++ ratStr requestedTokens ++
      S " exceeds per-call limit " ++ ratStr limits.maxTokensPerCall)
  else if limits.maxTotalTokens < st.totalTokensUsed + requestedTokens then
    some (S "Total token budget exceeded: " ++
      ratStr (st.totalTokensUsed + requestedTokens) ++ S "/" ++
      ratStr limits.maxTotalTokens)
  else none

/-- `LLMBudgetManager.recordUsage`: the only mutator of the counters. -/
def recordUsage (st : BudgetState) (tokensUsed : ℚ) : BudgetState :=
  { callCount := st.callCount + 1,
    totalTokensUsed := st.totalTokensUsed + tokensUsed }

/-! ### `src/llm/llm.manager.ts` -/

/-- `LLMFeatures`. -/
structure LLMFeatures where
  skillNormalization : Option Bool := none
  sectionClassification : Option Bool := none
  suggestions : Option Bool := none
deriving DecidableEq

/-- The `models` field of `LLMConfig`. -/
structure LLMModels where
  defaultModel : Str
  thinking : Option Str := none
deriving DecidableEq

/-- The content of a settled client response.  `empty` stands for any
falsy `response.content` (absent, `null`, the empty string, `0`,
`false`); `text` carries the outcome of the platform primitive
`JSON.parse` on a truthy string content; `value` is a truthy non-string
content. -/
inductive RespContent where
  | empty
  | text (parsed : Except Str Json)
  | value (j : Json)

/-- The observable outcome of the single external
`client.createCompletion` call an analysis makes: the `Promise.race`
settles with the timeout rejection, the client's rejection (transport
failure), or the client's response (content plus optional
`usage.total_tokens`). -/
inductive CallOutcome where
  | timeout
  | transport (msg : Str)
  | resp (content : RespContent) (usage : Option ℚ)

/-- `LLMConfig`.  The caller-supplied `client` is modelled by the
outcome of the one call made through it. -/
structure LLMConfig where
  client : CallOutcome
  models : Option LLMModels := none
  limits : LLMBudget
  enable : Option LLMFeatures := none
  timeoutMs : Option ℚ := none

/-- `LLMResult<T>` with `T` instantiated at the parsed JSON payload. -/
structure LLMResultJ where
  success : Bool
  data : Option Json := none
  fallback : Bool
  error : Option Str := none
  tokensUsed : Option ℚ := none

/-- The state of an `LLMManager` instance: its budget manager's counters
and its `warnings` array. -/
structure ManagerState where
  budget : BudgetState
  warnings : List Str

/-- A freshly constructed `LLMManager`'s state. -/
def initManagerState : ManagerState := { budget := initBudgetState, warnings := [] }

/-- `LLMCallOptions`. -/
structure LLMCallOptions where
  model : Option Str := none
  useThinking : Option Bool := none
  requestedTokens : Option ℚ := none

/-- The computed branch of `LLMManager.estimateTokens`:
`ceil(chars/4) + ceil(ceil(chars/4)/2)` (natural-number ceilings). -/
def estimateTokensDefault (systemPrompt userPrompt : Str) : ℚ :=
  let totalChars := systemPrompt.length + userPrompt.length
  let estimatedInputTokens := (totalChars + 3) / 4
  ((estimatedInputTokens + (estimatedInputTokens + 1) / 2 : ℕ) : ℚ)

/-- `LLMManager.estimateTokens`.  `if (requestedTokens)` is a truthiness
test: an explicit `0` falls through to the computed estimate. -/
def estimateTokens (systemPrompt userPrompt : Str)
    (requestedTokens : Option ℚ) : ℚ :=
  match requestedTokens with
  | some r => if r = 0 then estimateTokensDefault systemPrompt userPrompt else r
  | none => estimateTokensDefault systemPrompt userPrompt

/-- `LLMManager.isValidJsonSchema`:
`schema && schema.type === "object" && !!(schema.properties || schema.required)`. -/
def isValidJsonSchema (schema : JSONSchema) : Bool :=
  schema.type == S "object" &&
    (schema.properties.isSome || schema.required.isSome)

/-- The strict JSON-only instruction appended to the user prompt before
dispatch. -/
def strictUserPrompt (userPrompt : Str) : Str :=
  userPrompt ++
    S "\n\nReturn ONLY valid JSON matching the schema below.\nNo explanations. No markdown. No additional text."

/-- `LLMManager.validateAgainstSchema` delegates to `validateJsonSchema`;
the `catch` fallback is unreachable because the modelled validator is
total. -/
def validateAgainstSchema (data : Json) (schema : JSONSchema) : Bool :=
  validateJsonSchema data schema

/-- A failed `LLMResult` (`{ success: false, fallback: true, error }`). -/
def llmFailure (msg : Str) : LLMResultJ :=
  { success := false, fallback := true, error := some msg }

/-- `LLMManager.callLLM`.  The unhandled-rejection bookkeeping and the
grace-period drains have no observable effect on the result or the
budget counters and are not modelled; the timeout race is reflected in
the `CallOutcome`. -/
def callLLM (cfg : LLMConfig) (st : ManagerState) (systemPrompt userPrompt : Str)
    (schema : JSONSchema) (opts : LLMCallOptions) : LLMResultJ × ManagerState :=
  let timeoutMs := cfg.timeoutMs.getD 30000
  let estimatedTokens := estimateTokens systemPrompt userPrompt opts.requestedTokens
  match assertCanCall cfg.limits st.budget estimatedTokens with
  | some thrown =>
    let msg := S "LLM budget exhausted: " ++ thrown
    (llmFailure msg, { st with warnings := st.warnings ++ [msg] })
  | none =>
    if !isValidJsonSchema schema then
      let msg := S "Invalid JSON schema provided"
      (llmFailure msg, { st with warnings := st.warnings ++ [msg] })
    else
      -- the dispatched message content (`strictUserPrompt`) is consumed by
      -- the modelled client through `cfg.client`
      let handleParsed (parsedContent : Json) (usage : Option ℚ) :
          LLMResultJ × ManagerState :=
        if !validateAgainstSchema parsedContent schema then
          let msg := S "LLM response does not match schema"
          (llmFailure msg, { st with warnings := st.warnings ++ [msg] })
        else
          -- `response.usage?.total_tokens || estimatedTokens`
          let tokensUsed :=
            match usage with
            | some u => if u = 0 then estimatedTokens else u
            | none => estimatedTokens
          ({ success := true, fallback := false, data := some parsedContent,
             tokensUsed := some tokensUsed },
           { st with budget := recordUsage st.budget tokensUsed })
      match cfg.client with
      | .timeout =>
        let msg := S "LLM call failed: " ++ S "LLM call timeout after " ++
          ratStr timeoutMs ++ S "ms"
        (llmFailure msg, { st with warnings := st.warnings ++ [msg] })
      | .transport emsg =>
        let msg := S "LLM call failed: " ++ emsg
        (llmFailure msg, { st with warnings := st.warnings ++ [msg] })
      | .resp content usage =>
        match content with
        | .empty =>
          -- this branch returns without pushing a warning
          (llmFailure (S "Empty response from LLM"), st)
        | .text (.error parseErr) =>
          let msg := S "Invalid JSON in LLM response: " ++ parseErr
          (llmFailure msg, { st with warnings := st.warnings ++ [msg] })
        | .text (.ok parsedContent) => handleParsed parsedContent usage
        | .value parsedContent => handleParsed parsedContent usage

/-! ### `src/llm/llm.prompts.ts`, `src/llm/llm.schemas.ts` -/

/-- `LLMPrompts.suggestionEnhancementSystem`. -/
def suggestionEnhancementSystem : Str :=
  S "You are a resume advice expert.\nImprove suggestions to be more actionable and specific.\nMaintain the core message but make it more concrete.\nReturn ONLY valid JSON."

/-- `LLMPrompts.suggestionEnhancementUser`. -/
def suggestionEnhancementUser (suggestions : List Str) : Str :=
  S "Enhance these suggestions for clarity and actionability:\n" ++
  (S "\n").intercalate (suggestions.map (fun s => S "- " ++ s)) ++
  S "\n\nMake them specific and measurable where possible.\n\nCRITICAL: You MUST return ONLY valid JSON in this exact format (no markdown, no extra text):\n\x7b\n  \"suggestions\": [\n    \x7b\n      \"original\": \"the original suggestion text\",\n      \"enhanced\": \"your improved, more actionable version\",\n      \"actionable\": true\n    \x7d\n  ]\n\x7d"

/-- `suggestionEnhancementSchema` (`LLMSchemas.suggestionEnhancement`;
the inert `description` annotations are omitted). -/
def suggestionEnhancementSchema : JSONSchema :=
  .mk (S "object")
    (some [(S "suggestions",
      .mk (S "array") none none
        (some (.mk (S "object")
          (some [(S "original", .mk (S "string") none none none),
                 (S "enhanced", .mk (S "string") none none none),
                 (S "actionable", .mk (S "boolean") none none none)])
          (some [S "original", S "enhanced"])
          none)))])
    (some [S "suggestions"])
    none

/-! ### `src/llm/llm.adapters.ts` -/

/-- An element of `adaptSuggestionEnhancementResponse`'s result.  The
source casts `original`/`enhanced` to `string` without a runtime check;
the model keeps the raw JSON values. -/
structure EnhancedSuggestion where
  original : Json
  enhanced : Json
  actionable : Option Bool

/-- One iteration of the `adaptSuggestionEnhancementResponse` loop. -/
def adaptSuggestionItem (item : Json) : Option EnhancedSuggestion :=
  match item with
  | .obj _ | .arr _ =>
    let original := getField item (S "original")
    let enhanced := getField item (S "enhanced")
    let actionable :=
      match getField item (S "actionable") with
      | some (.bool b) => some b
      | _ => none
    -- `if (original && enhanced)`
    match original, enhanced with
    | some ov, some ev =>
      if jsTruthy ov && jsTruthy ev then
        some { original := ov, enhanced := ev, actionable := actionable }
      else none
    | _, _ => none
  | _ => none

/-- `adaptSuggestionEnhancementResponse`. -/
def adaptSuggestionEnhancementResponse (data : Json) : List EnhancedSuggestion :=
  match data with
  | .obj _ | .arr _ =>
    match getField data (S "suggestions") with
    | some (.arr items) => items.filterMap adaptSuggestionItem
    | _ => []
  | _ => []

/-- Coercion of an adapted `enhanced` payload value into the suggestion
string list (the source's unchecked `as string` cast; a string payload
passes through unchanged, which is the only case the library's schema
admits for claim-relevant runs). -/
def jsonAsStr : Json → Str
  | .str s => s
  | .num q => ratStr q
  | .bool b => if b then S "true" else S "false"
  | .null => S "null"
  | .arr _ => []
  | .obj _ => []

/-! ### `src/index.ts` -/

/-- `AnalyzeResumeInput`. -/
structure AnalyzeResumeInput where
  resumeText : Str
  jobDescription : Str
  config : Option ATSConfig := none
  llm : Option LLMConfig := none

/-- `ATSAnalysisResult`. -/
structure ATSAnalysisResult where
  score : ℚ
  breakdown : ATSBreakdown
  matchedKeywords : List Str
  missingKeywords : List Str
  overusedKeywords : List Str
  suggestions : List Str
  warnings : List Str
deriving DecidableEq

/-- Result record of the two `enhanceSuggestionsWithLLM*` helpers. -/
structure EnhanceResult where
  success : Bool
  enhancedSuggestions : Option (List Str) := none
  warnings : List Str
deriving DecidableEq

/-- `config.enable?.suggestions` truthiness. -/
def llmSuggestionsEnabled (cfg : LLMConfig) : Bool :=
  match cfg.enable with
  | some features => features.suggestions.getD false
  | none => false

/-- The warning the synchronous path pushes before falling back. -/
def llmSkippedWarning : Str :=
  S "LLM suggestion enhancement skipped - use async analyzeResumeAsync for LLM features"

/-- `enhanceSuggestionsWithLLM` (the synchronous stub: it constructs the
manager, pushes the skip warning and always reports failure; the `catch`
is unreachable in the model). -/
def enhanceSuggestionsWithLLM (cfg : LLMConfig) (_suggestions : List Str) :
    EnhanceResult :=
  if !llmSuggestionsEnabled cfg then
    { success := false, warnings := [] }
  else
    { success := false, warnings := [llmSkippedWarning] }

/-- `enhanceSuggestionsWithLLMAsync`. -/
def enhanceSuggestionsWithLLMAsync (cfg : LLMConfig) (suggestions : List Str) :
    EnhanceResult :=
  if !llmSuggestionsEnabled cfg then
    { success := false, warnings := [] }
  else
    let callR := callLLM cfg initManagerState suggestionEnhancementSystem
      (suggestionEnhancementUser suggestions) suggestionEnhancementSchema
      { requestedTokens := some 2000 }
    let result := callR.1
    let manager := callR.2
    if !result.success || !jsTruthyOpt result.data then
      let warnings :=
        match result.error with
        | some err => [S "LLM suggestion enhancement failed: " ++ err]
        | none => []
      { success := false, warnings := warnings ++ manager.warnings }
    else
      match result.data with
      | some payload =>
        let enhanced := adaptSuggestionEnhancementResponse payload
        let enhancedSuggestions :=
          (enhanced.filter (fun e => e.actionable ≠ some false)).map
            (fun e => jsonAsStr e.enhanced)
        if enhancedSuggestions.isEmpty then
          { success := false,
            warnings := [S "LLM returned no actionable enhanced suggestions"] ++
              manager.warnings }
        else
          { success := true, enhancedSuggestions := some enhancedSuggestions,
            warnings := manager.warnings }
      | none =>
        -- unreachable: `jsTruthyOpt result.data` was checked above
        { success := false, warnings := manager.warnings }

/-- `analyzeResume` (the synchronous entry point). -/
def analyzeResume (input : AnalyzeResumeInput) : ATSAnalysisResult :=
  let resolvedConfig := resolveConfig (input.config.getD {})
  let parsedResume := parseResume input.resumeText resolvedConfig
  let parsedJob := parseJobDescription input.jobDescription resolvedConfig
  let scoring := calculateScore parsedResume parsedJob resolvedConfig
  let ruleResult := ruleEvaluate resolvedConfig
    { resume := parsedResume, job := parsedJob,
      breakdown := some scoring.breakdown,
      matchedKeywords := some scoring.matchedKeywords,
      overusedKeywords := some scoring.overusedKeywords }
  let suggestionResult := suggestionGenerate
    { resume := parsedResume, job := parsedJob, score := scoring,
      ruleWarnings := ruleResult.warnings }
  -- `if (input.llm && suggestionResult.suggestions.length > 0)`
  let withLLM : List Str × List Str :=
    match input.llm with
    | some cfg =>
      if 0 < suggestionResult.suggestions.length then
        let llmResult := enhanceSuggestionsWithLLM cfg suggestionResult.suggestions
        ((if llmResult.success then
            llmResult.enhancedSuggestions.getD suggestionResult.suggestions
          else suggestionResult.suggestions), llmResult.warnings)
      else (suggestionResult.suggestions, [])
    | none => (suggestionResult.suggestions, [])
  { score := clamp (scoring.score - ruleResult.totalPenalty) 0 100
    breakdown := scoring.breakdown
    matchedKeywords := scoring.matchedKeywords
    missingKeywords := scoring.missingKeywords
    overusedKeywords := scoring.overusedKeywords
    suggestions := withLLM.1
    warnings := suggestionResult.warnings ++ withLLM.2 }

/-- `analyzeResumeAsync` (the asynchronous entry point; identical to the
synchronous pipeline except for the awaited enhancement helper). -/
def analyzeResumeAsync (input : AnalyzeResumeInput) : ATSAnalysisResult :=
  let resolvedConfig := resolveConfig (input.config.getD {})
  let parsedResume := parseResume input.resumeText resolvedConfig
  let parsedJob := parseJobDescription input.jobDescription resolvedConfig
  let scoring := calculateScore parsedResume parsedJob resolvedConfig
  let ruleResult := ruleEvaluate resolvedConfig
    { resume := parsedResume, job := parsedJob,
      breakdown := some scoring.breakdown,
      matchedKeywords := some scoring.matchedKeywords,
      overusedKeywords := some scoring.overusedKeywords }
  let suggestionResult := suggestionGenerate
    { resume := parsedResume, job := parsedJob, score := scoring,
      ruleWarnings := ruleResult.warnings }
  let withLLM : List Str × List Str :=
    match input.llm with
    | some cfg =>
      if 0 < suggestionResult.suggestions.length then
        let llmResult := enhanceSuggestionsWithLLMAsync cfg suggestionResult.suggestions
        ((if llmResult.success then
            llmResult.enhancedSuggestions.getD suggestionResult.suggestions
          else suggestionResult.suggestions), llmResult.warnings)
      else (suggestionResult.suggestions, [])
    | none => (suggestionResult.suggestions, [])
  { score := clamp (scoring.score - ruleResult.totalPenalty) 0 100
    breakdown := scoring.breakdown
    matchedKeywords := scoring.matchedKeywords
    missingKeywords := scoring.missingKeywords
    overusedKeywords := scoring.overusedKeywords
    suggestions := withLLM.1
    warnings := suggestionResult.warnings ++ withLLM.2 }

/-! ### Concrete fixtures used by the closed evaluations below -/

/-- A profile mandating no skills. -/
def wProfileNoMandatory : ATSProfile :=
  { name := S "t", mandatorySkills := [], optionalSkills := [],
    minExperience := none }

/-- A resolved configuration whose profile mandates no skills. -/
def wCfgNoMandatory : ResolvedATSConfig :=
  resolveConfig { profile := some wProfileNoMandatory }

/-- A partial configuration with a keyword-density maximum of `1/5`. -/
def wDensityConfig : ATSConfig :=
  { keywordDensity := some { min := 0, max := 1/5, overusePenalty := 5 } }

/-- A partial configuration with a keyword-density maximum of `3/4`. -/
def wDensityConfigBoundary : ATSConfig :=
  { keywordDensity := some { min := 0, max := 3/4, overusePenalty := 5 } }

/-- A small budget admitting one 2000-token call. -/
def wLimits : LLMBudget :=
  { maxCalls := 1, maxTokensPerCall := 2000, maxTotalTokens := 2000 }

/-- An enhancement configuration whose external call times out. -/
def wLLMTimeout : LLMConfig :=
  { client := .timeout, limits := wLimits, enable := some { suggestions := some true } }

/-- An enhancement configuration whose `enable` field is absent. -/
def wLLMDisabled : LLMConfig :=
  { client := .timeout, limits := wLimits }

/-- A budget already exhausted on the call count. -/
def wLimitsNoCalls : LLMBudget :=
  { maxCalls := 0, maxTokensPerCall := 2000, maxTotalTokens := 2000 }

/-- A resume body whose tokens are `react, react, react, go`. -/
def wResumeReact : Str := S "react react react go"

/-- A job description requiring `react`. -/
def wJobReact : Str := S "Must have react"

/-- A job description that zeroes every scoring component against an
empty resume (required skills and keywords it lacks, a degree
requirement, and a role keyword, with the default profile's minimum
experience unmet). -/
def wJobEdu : Str := S "bachelor required javascript"

/-! ## General lemmas about the embedded primitives -/

/-- `clamp` stays above its lower bound when the bounds are ordered. -/
theorem le_clamp {v lo hi : ℚ} (h : lo ≤ hi) : lo ≤ clamp v lo hi :=
  le_min (le_max_right v lo) h

/-- `clamp` stays below its upper bound. -/
theorem clamp_le {v lo hi : ℚ} : clamp v lo hi ≤ hi := min_le_right _ _

/-- `Char.ofNat` on a valid code point round-trips through `toNat`. -/
theorem toNat_ofNat_valid (n : ℕ) (h : n.isValidChar) :
    (Char.ofNat n).toNat = n := by
  unfold Char.ofNat
  rw [dif_pos h]
  unfold Char.ofNatAux Char.toNat
  simp [UInt32.toNat, BitVec.toNat_ofNatLt]

/-- ASCII lowercasing is idempotent. -/
theorem toLower_idem (c : Char) : Char.toLower (Char.toLower c) = Char.toLower c := by
  unfold Char.toLower
  by_cases h : c.toNat ≥ 65 ∧ c.toNat ≤ 90
  · rw [if_pos h]
    have hvalid : (c.toNat + 32).isValidChar := Or.inl (by omega)
    have hv : (Char.ofNat (c.toNat + 32)).toNat = c.toNat + 32 :=
      toNat_ofNat_valid _ hvalid
    rw [if_neg (by rw [hv]; omega)]
  · rw [if_neg h, if_neg h]

/-- Lowercasing a string is idempotent. -/
theorem toLowerStr_idem (s : Str) : toLowerStr (toLowerStr s) = toLowerStr s := by
  unfold toLowerStr
  rw [List.map_map]
  exact List.map_congr_left (fun c _ => toLower_idem c)

/-- Membership in `uniqueAux` for lists of lowercase-fixed strings. -/
theorem mem_uniqueAux_iff {x : Str} :
    ∀ (l : List Str) (seen : List Str),
      (∀ y ∈ l, toLowerStr y = y) →
      (x ∈ uniqueAux seen l ↔ x ∈ l ∧ toLowerStr x ∉ seen) := by
  intro l
  induction l with
  | nil => intro seen _; simp [uniqueAux]
  | cons v rest ih =>
    intro seen hl
    have hv : toLowerStr v = v := hl v (by simp)
    have hrest : ∀ y ∈ rest, toLowerStr y = y := fun y hy => hl y (by simp [hy])
    unfold uniqueAux
    by_cases hseen : toLowerStr v ∈ seen
    · rw [if_pos hseen, ih seen hrest]
      constructor
      · rintro ⟨hx, hns⟩
        exact ⟨List.mem_cons_of_mem v hx, hns⟩
      · rintro ⟨hx, hns⟩
        rcases List.mem_cons.mp hx with rfl | hx'
        · exact absurd hseen hns
        · exact ⟨hx', hns⟩
    · rw [if_neg hseen, List.mem_cons, List.mem_cons,
        ih (toLowerStr v :: seen) hrest]
      constructor
      · rintro (rfl | ⟨hx, hns⟩)
        · exact ⟨Or.inl rfl, hseen⟩
        · exact ⟨Or.inr hx, fun hmem => hns (List.mem_cons_of_mem _ hmem)⟩
      · rintro ⟨hx, hns⟩
        by_cases hxv : x = v
        · exact Or.inl hxv
        · rcases hx with rfl | hx'
          · exact absurd rfl hxv
          · refine Or.inr ⟨hx', fun hmem => ?_⟩
            rcases List.mem_cons.mp hmem with heq | hmem'
            · have hx'' : toLowerStr x = x := hrest x hx'
              rw [hx'', hv] at heq
              exact hxv heq
            · exact hns hmem'

/-- Membership in `unique` for lists of lowercase-fixed strings. -/
theorem mem_unique_iff {x : Str} {l : List Str}
    (hl : ∀ y ∈ l, toLowerStr y = y) : x ∈ unique l ↔ x ∈ l := by
  unfold unique
  rw [mem_uniqueAux_iff l [] hl]
  simp

/-- Membership in `dedupKeepFirstAux`. -/
theorem mem_dedupAux_iff {x : Str} :
    ∀ (l : List Str) (seen : List Str),
      x ∈ dedupKeepFirstAux seen l ↔ x ∈ l ∧ x ∉ seen := by
  intro l
  induction l with
  | nil => intro seen; simp [dedupKeepFirstAux]
  | cons v rest ih =>
    intro seen
    unfold dedupKeepFirstAux
    by_cases hseen : v ∈ seen
    · rw [if_pos hseen, ih seen, List.mem_cons]
      constructor
      · rintro ⟨hx, hns⟩; exact ⟨Or.inr hx, hns⟩
      · rintro ⟨rfl | hx, hns⟩
        · exact absurd hseen hns
        · exact ⟨hx, hns⟩
    · rw [if_neg hseen, List.mem_cons, List.mem_cons, ih (v :: seen)]
      constructor
      · rintro (rfl | ⟨hx, hns⟩)
        · exact ⟨Or.inl rfl, hseen⟩
        · exact ⟨Or.inr hx, fun hmem => hns (List.mem_cons_of_mem _ hmem)⟩
      · rintro ⟨hx, hns⟩
        by_cases hxv : x = v
        · exact Or.inl hxv
        · rcases hx with rfl | hx'
          · exact absurd rfl hxv
          · refine Or.inr ⟨hx', fun hmem => ?_⟩
            rcases List.mem_cons.mp hmem with heq | hmem'
            · exact hxv heq
            · exact hns hmem'

/-- Membership in `dedupKeepFirst`. -/
theorem mem_dedup_iff {x : Str} {l : List Str} :
    x ∈ dedupKeepFirst l ↔ x ∈ l := by
  unfold dedupKeepFirst
  rw [mem_dedupAux_iff l []]
  simp

/-- Rational ceiling of a natural division, as computed by
`(m + d - 1) / d` in ℕ. -/
theorem ceil_natCast_div (m d : ℕ) (hd : 0 < d) :
    (⌈(m : ℚ) / (d : ℚ)⌉ : ℤ) = (((m + d - 1) / d : ℕ) : ℤ) := by
  rcases Nat.eq_zero_or_pos m with rfl | hm
  · have hlt : d - 1 < d := by omega
    simp [Nat.div_eq_of_lt hlt]
  · have hsplit : m + d - 1 = (m - 1) + d := by omega
    rw [hsplit, Nat.add_div_right _ hd]
    have hdm := Nat.div_add_mod (m - 1) d
    have hr : (m - 1) % d < d := Nat.mod_lt _ hd
    set q := (m - 1) / d with hq
    set r := (m - 1) % d with hrdef
    have hd' : (0 : ℚ) < (d : ℚ) := by exact_mod_cast hd
    rw [Int.ceil_eq_iff]
    constructor
    · rw [lt_div_iff₀ hd']
      have heq : ((((q + 1 : ℕ)) : ℤ) : ℚ) - 1 = (q : ℚ) := by push_cast; ring
      rw [heq]
      have hql : d * q < m := by
        generalize hA : d * q = A at hdm ⊢
        omega
      calc (q : ℚ) * d = ((d * q : ℕ) : ℚ) := by push_cast; ring
        _ < m := by exact_mod_cast hql
    · rw [div_le_iff₀ hd']
      have hqu : m ≤ (q + 1) * d := by
        have hmul : (q + 1) * d = d * q + d := by ring
        rw [hmul]
        generalize hA : d * q = A at hdm ⊢
        omega
      calc (m : ℚ) ≤ (((q + 1) * d : ℕ) : ℚ) := by exact_mod_cast hqu
        _ = ((((q + 1) : ℕ)) : ℚ) * d := by push_cast; ring

/-! ## C4 — weight normalization -/

/-- C4: `normalizeWeights` passes an all-zero-sum weight set through
unchanged (apart from stamping `normalizedTotal = 1`); for a non-zero
sum it divides each component by the sum, and the resolved components
then sum to 1. -/
theorem normalizeWeights_zero_passthrough_and_unit_sum (w : ATSWeights) :
    (w.skills + w.experience + w.keywords + w.education = 0 →
      normalizeWeights w =
        { skills := w.skills, experience := w.experience,
          keywords := w.keywords, education := w.education,
          normalizedTotal := 1 }) ∧
    (w.skills + w.experience + w.keywords + w.education ≠ 0 →
      ((normalizeWeights w).skills =
          w.skills / (w.skills + w.experience + w.keywords + w.education) ∧
        (normalizeWeights w).experience =
          w.experience / (w.skills + w.experience + w.keywords + w.education) ∧
        (normalizeWeights w).keywords =
          w.keywords / (w.skills + w.experience + w.keywords + w.education) ∧
        (normalizeWeights w).education =
          w.education / (w.skills + w.experience + w.keywords + w.education)) ∧
      (normalizeWeights w).skills + (normalizeWeights w).experience +
        (normalizeWeights w).keywords + (normalizeWeights w).education = 1) := by
  constructor
  · intro h0
    unfold normalizeWeights
    rw [if_pos h0]
  · intro hne
    unfold normalizeWeights
    rw [if_neg hne]
    refine ⟨⟨rfl, rfl, rfl, rfl⟩, ?_⟩
    field_simp

/-- Witness for C4 at the all-ones weight set. -/
theorem normalizeWeights_zero_passthrough_and_unit_sum_witness :
    ((1 : ℚ) + 1 + 1 + 1 ≠ 0) ∧
    (normalizeWeights ⟨1, 1, 1, 1⟩).skills +
      (normalizeWeights ⟨1, 1, 1, 1⟩).experience +
      (normalizeWeights ⟨1, 1, 1, 1⟩).keywords +
      (normalizeWeights ⟨1, 1, 1, 1⟩).education = 1 :=
  ⟨by norm_num,
    ((normalizeWeights_zero_passthrough_and_unit_sum ⟨1, 1, 1, 1⟩).2
      (by norm_num)).2⟩

/-! ## C9 — token estimation -/

/-- C9 counterexample: with system prompt `"abcd"` (4 characters) and an
empty user prompt, the computed estimate is `2`, not
`⌈4/4⌉ × 1.5 = 1.5` as the claim states; and an explicit requested
count of `0` is falsy in `if (requestedTokens)` and is ignored rather
than returned. -/
theorem estimateTokens_counterexample :
    estimateTokens (S "abcd") (S "") none = 2 ∧
    ¬ (estimateTokens (S "abcd") (S "") none =
        ((⌈(((S "abcd").length + (S "").length : ℕ) : ℚ) / 4⌉ : ℤ) : ℚ) * (3/2)) ∧
    estimateTokens (S "abcd") (S "") (some 0) ≠ 0 := by
  refine ⟨?_, ?_, ?_⟩
  · norm_num [estimateTokens, estimateTokensDefault, S]
  · intro h
    rw [show (((S "abcd").length + (S "").length : ℕ) : ℚ) = 4 by norm_num [S]] at h
    norm_num [estimateTokens, estimateTokensDefault, S] at h
  · norm_num [estimateTokens, estimateTokensDefault, S]

/-- C9 amended: without an explicit request the estimate is
`⌈1.5 × ⌈(|system| + |user|)/4⌉⌉` (the integer ceiling of 1.5 times the
input-token ceiling, computed as `x + ⌈x/2⌉`); an explicit *non-zero*
request is returned as-is. -/
theorem estimateTokens_amended (sys usr : Str) (r : ℚ) :
    (estimateTokens sys usr none =
      ((⌈(3 * (⌈((sys.length + usr.length : ℕ) : ℚ) / 4⌉ : ℤ) : ℚ) / 2⌉ : ℤ) : ℚ)) ∧
    (r ≠ 0 → estimateTokens sys usr (some r) = r) := by
  constructor
  · simp only [estimateTokens, estimateTokensDefault]
    set n := sys.length + usr.length with hn
    rw [show n + 3 = n + 4 - 1 from by omega]
    rw [show (4 : ℚ) = ((4 : ℕ) : ℚ) from by norm_num]
    rw [ceil_natCast_div n 4 (by norm_num)]
    set x := (n + 4 - 1) / 4 with hx
    rw [show ((3 : ℚ) * (((x : ℕ) : ℤ) : ℚ)) = (((3 * x : ℕ) : ℚ)) from by
      push_cast; ring]
    rw [show (2 : ℚ) = ((2 : ℕ) : ℚ) from by norm_num]
    rw [ceil_natCast_div (3 * x) 2 (by norm_num)]
    have harith : x + (x + 1) / 2 = (3 * x + 2 - 1) / 2 := by omega
    rw [harith]
    norm_cast
  · intro hr
    simp only [estimateTokens]
    rw [if_neg hr]

/-- Witness for C9's amended theorem at `sys = "abcd"`, `usr = ""`,
`r = 7`. -/
theorem estimateTokens_amended_witness :
    ((7 : ℚ) ≠ 0) ∧ estimateTokens (S "abcd") (S "") (some 7) = 7 :=
  ⟨by norm_num, (estimateTokens_amended (S "abcd") (S "") 7).2 (by norm_num)⟩

/-! ## C2 — score and breakdown bounds -/

/-- The skills component is clamped to [0, 100]. -/
theorem scoreSkills_score_bounds (r : ParsedResume) (j : ParsedJobDescription)
    (c : ResolvedATSConfig) :
    0 ≤ (scoreSkills r j c).score ∧ (scoreSkills r j c).score ≤ 100 := by
  unfold scoreSkills
  exact ⟨le_clamp (by norm_num), clamp_le⟩

/-- The experience component lies in [0, 100]. -/
theorem scoreExperience_score_bounds (r : ParsedResume)
    (j : ParsedJobDescription) (c : ResolvedATSConfig) :
    0 ≤ (scoreExperience r j c).score ∧ (scoreExperience r j c).score ≤ 100 := by
  unfold scoreExperience
  dsimp only
  split
  · norm_num
  · exact ⟨le_clamp (by norm_num), clamp_le⟩

/-- The keywords component lies in [0, 100]. -/
theorem scoreKeywords_score_bounds (r : ParsedResume)
    (j : ParsedJobDescription) (c : ResolvedATSConfig) :
    0 ≤ (scoreKeywords r j c).score ∧ (scoreKeywords r j c).score ≤ 100 := by
  unfold scoreKeywords
  dsimp only
  split
  · norm_num
  · exact ⟨le_clamp (by norm_num), clamp_le⟩

/-- The education component lies in [0, 100]. -/
theorem scoreEducation_bounds (r : ParsedResume) (j : ParsedJobDescription) :
    0 ≤ scoreEducation r j ∧ scoreEducation r j ≤ 100 := by
  unfold scoreEducation
  dsimp only
  split
  · norm_num
  · split
    · norm_num
    · exact ⟨le_clamp (by norm_num), clamp_le⟩

set_option maxHeartbeats 4000000 in
/-- C2: for every resume text, job-description text and configuration
(including an optional LLM configuration), both entry points return a
score in [0, 100] and a breakdown whose four components are each in
[0, 100].  (The asynchronous entry point passes its breakdown and score
through the same clamps.) -/
theorem analysis_score_and_breakdown_bounds (input : AnalyzeResumeInput) :
    (0 ≤ (analyzeResume input).score ∧ (analyzeResume input).score ≤ 100) ∧
    (0 ≤ (analyzeResume input).breakdown.skills ∧
      (analyzeResume input).breakdown.skills ≤ 100) ∧
    (0 ≤ (analyzeResume input).breakdown.experience ∧
      (analyzeResume input).breakdown.experience ≤ 100) ∧
    (0 ≤ (analyzeResume input).breakdown.keywords ∧
      (analyzeResume input).breakdown.keywords ≤ 100) ∧
    (0 ≤ (analyzeResume input).breakdown.education ∧
      (analyzeResume input).breakdown.education ≤ 100) ∧
    (0 ≤ (analyzeResumeAsync input).score ∧
      (analyzeResumeAsync input).score ≤ 100) ∧
    (analyzeResumeAsync input).breakdown = (analyzeResume input).breakdown := by
  simp only [analyzeResume, analyzeResumeAsync, calculateScore]
  refine ⟨⟨le_clamp (by norm_num), clamp_le⟩,
    scoreSkills_score_bounds _ _ _,
    scoreExperience_score_bounds _ _ _,
    scoreKeywords_score_bounds _ _ _,
    scoreEducation_bounds _ _,
    ⟨le_clamp (by norm_num), clamp_le⟩, ?_⟩
  first
  | rfl
  | trivial

/-! ## C3 — empty-input behaviour -/

set_option maxHeartbeats 16000000 in
set_option maxRecDepth 10000 in
/-- C3 counterexample: calling `analyzeResume` with empty resume and
job-description texts does *not* fail with an input-validation error —
there is no such validation anywhere in the entry points.  The call runs
the full pipeline and returns a normal result: the score is the
pipeline's computed `14.5`, the education breakdown is the scoring
engine's empty-requirement `100`, and the parser's missing-section
warnings are present, so parsing, scoring and rule evaluation all ran.
(The only empty-input rejection in the repository is the HTTP wrapper's
`400`, which the specification places out of scope.) -/
theorem empty_inputs_not_rejected_counterexample :
    (analyzeResume { resumeText := S "", jobDescription := S "" }).score = 29/2 ∧
    (analyzeResume { resumeText := S "", jobDescription := S "" }).breakdown.education
      = 100 ∧
    S "summary section not detected" ∈
      (analyzeResume { resumeText := S "", jobDescription := S "" }).warnings := by
  refine ⟨by decide, by decide, by decide⟩

set_option maxHeartbeats 4000000 in
/-- C3 amended: empty raw inputs are not rejected; under every
configuration the entry point runs the pipeline on them and returns a
normal result carrying the resume parser's four missing-section
warnings (no error can terminate the call, which is a total function of
its input). -/
theorem empty_inputs_run_pipeline (config : Option ATSConfig) :
    S "summary section not detected" ∈
      (analyzeResume
        { resumeText := S "", jobDescription := S "", config := config }).warnings ∧
    S "experience section not detected" ∈
      (analyzeResume
        { resumeText := S "", jobDescription := S "", config := config }).warnings ∧
    S "skills section not detected" ∈
      (analyzeResume
        { resumeText := S "", jobDescription := S "", config := config }).warnings ∧
    S "education section not detected" ∈
      (analyzeResume
        { resumeText := S "", jobDescription := S "", config := config }).warnings := by
  have hw : (parseResume (S "") (resolveConfig (config.getD {}))).warnings =
      [S "summary section not detected", S "experience section not detected",
       S "skills section not detected", S "education section not detected"] := rfl
  refine ⟨?_, ?_, ?_, ?_⟩ <;>
  · simp only [analyzeResume, suggestionGenerate, List.append_nil]
    refine List.mem_append_right _ ?_
    rw [hw]
    simp

/-! ## C5 — required-skill coverage and the default profile -/

set_option maxHeartbeats 16000000 in
set_option maxRecDepth 10000 in
/-- C5 counterexample: under the configuration the entry points actually
resolve (`resolveConfig {}`, whose profile defaults to
`softwareEngineerProfile`), a job description stating *no* required
skills still yields a non-empty required set (the profile's mandatory
skills), so for an empty resume the required coverage is `0`, not `1`,
and the skills score is `0` rather than receiving the full `0.7`
contribution. -/
theorem skills_required_coverage_default_counterexample :
    (parseJobDescription (S "") (resolveConfig {})).requiredSkills = [] ∧
    skillsRequiredCoverage (parseResume (S "") (resolveConfig {}))
      (parseJobDescription (S "") (resolveConfig {})) (resolveConfig {}) = 0 ∧
    ¬ (skillsRequiredCoverage (parseResume (S "") (resolveConfig {}))
        (parseJobDescription (S "") (resolveConfig {})) (resolveConfig {}) = 1) ∧
    (scoreSkills (parseResume (S "") (resolveConfig {}))
      (parseJobDescription (S "") (resolveConfig {})) (resolveConfig {})).score = 0 := by
  refine ⟨by decide, by decide, by decide, by decide⟩

/-- C5 amended: when the resolved profile mandates no skills (so the
job's stated required set is all there is) and the job states no
required skills, the required coverage is `1` for every resume, and the
skills score gets the full `0.7` weight: it is at least 70. -/
theorem skills_required_coverage_amended (resume : ParsedResume)
    (job : ParsedJobDescription) (config : ResolvedATSConfig)
    (hprofile : (config.profile.map (·.mandatorySkills)).getD [] = [])
    (hjob : job.requiredSkills = []) :
    skillsRequiredCoverage resume job config = 1 ∧
    70 ≤ (scoreSkills resume job config).score := by
  have hreq : skillsRequired job config = [] := by
    unfold skillsRequired
    rw [hprofile, hjob]
    rfl
  have hcov : skillsRequiredCoverage resume job config = 1 := by
    unfold skillsRequiredCoverage
    rw [hreq]
    rfl
  refine ⟨hcov, ?_⟩
  have hopt : 0 ≤ skillsOptionalCoverage resume job config := by
    unfold skillsOptionalCoverage
    dsimp only
    split
    · norm_num
    · positivity
  unfold scoreSkills
  rw [hcov]
  unfold clamp
  refine le_min (le_trans ?_ (le_max_left _ _)) (by norm_num)
  unfold REQUIRED_SKILL_WEIGHT OPTIONAL_SKILL_WEIGHT
  nlinarith [hopt]

set_option maxHeartbeats 16000000 in
set_option maxRecDepth 10000 in
/-- Witness for C5's amended theorem: a profile with no mandatory
skills and an empty job description. -/
theorem skills_required_coverage_amended_witness :
    (((wCfgNoMandatory.profile.map (·.mandatorySkills)).getD [] = []) ∧
      (parseJobDescription (S "") wCfgNoMandatory).requiredSkills = []) ∧
    skillsRequiredCoverage (parseResume (S "") wCfgNoMandatory)
      (parseJobDescription (S "") wCfgNoMandatory) wCfgNoMandatory = 1 :=
  ⟨⟨by decide, by decide⟩,
    (skills_required_coverage_amended _ _ _ (by decide) (by decide)).1⟩

/-! ## C8 — the synchronous entry point and enhancement configurations -/

/-- The synchronous enhancement stub always fails. -/
theorem enhanceSync_success_false (cfg : LLMConfig) (s : List Str) :
    (enhanceSuggestionsWithLLM cfg s).success = false := by
  unfold enhanceSuggestionsWithLLM
  split <;> rfl

/-- When suggestions are enabled, the synchronous stub's warning list is
exactly the skip warning. -/
theorem enhanceSync_warnings (cfg : LLMConfig) (s : List Str)
    (hEn : llmSuggestionsEnabled cfg = true) :
    (enhanceSuggestionsWithLLM cfg s).warnings = [llmSkippedWarning] := by
  unfold enhanceSuggestionsWithLLM
  rw [hEn]
  rfl

set_option maxHeartbeats 16000000 in
set_option maxRecDepth 10000 in
/-- C8 counterexample: an input that includes an enhancement
configuration whose `enable` field is absent gets *no* warning noting
that enhancement was skipped — the skip warning is pushed only when
`enable.suggestions` is truthy.  (The suggestions are still the
deterministic list.) -/
theorem sync_skip_warning_counterexample :
    (analyzeResume
        { resumeText := S "", jobDescription := S "", llm := some wLLMDisabled }).suggestions =
      (analyzeResume { resumeText := S "", jobDescription := S "" }).suggestions ∧
    ((analyzeResume
        { resumeText := S "", jobDescription := S "", llm := some wLLMDisabled }).warnings.all
      (fun w => !containsSub (toLowerStr w) (S "skip"))) = true := by
  exact ⟨by decide, by decide⟩

/-- C8 amended: the synchronous entry point never substitutes enhanced
suggestions — its suggestion list always equals the deterministic one —
and it emits the skip warning exactly when the enhancement configuration
enables suggestions and the deterministic suggestion list is
non-empty. -/
theorem sync_llm_ignored_amended (resumeText jobDescription : Str)
    (config : Option ATSConfig) (cfg : LLMConfig) :
    (analyzeResume
        { resumeText := resumeText, jobDescription := jobDescription, config := config, llm := some cfg }).suggestions =
      (analyzeResume
        { resumeText := resumeText, jobDescription := jobDescription, config := config }).suggestions ∧
    (llmSuggestionsEnabled cfg = true →
      (analyzeResume
        { resumeText := resumeText, jobDescription := jobDescription, config := config }).suggestions ≠ [] →
      llmSkippedWarning ∈
        (analyzeResume
          { resumeText := resumeText, jobDescription := jobDescription, config := config, llm := some cfg }).warnings) := by
  constructor
  · simp only [analyzeResume]
    split
    · simp [enhanceSync_success_false]
    · rfl
  · intro hEn hNE
    simp only [analyzeResume] at hNE ⊢
    rw [if_pos (List.length_pos.mpr hNE)]
    rw [enhanceSync_warnings cfg _ hEn]
    exact List.mem_append_right _ (by simp)

set_option maxHeartbeats 16000000 in
set_option maxRecDepth 10000 in
/-- Witness for C8's amended theorem: an enabled configuration on empty
inputs (the default profile guarantees a non-empty deterministic
suggestion list). -/
theorem sync_llm_ignored_amended_witness :
    (llmSuggestionsEnabled wLLMTimeout = true ∧
      (analyzeResume { resumeText := S "", jobDescription := S "" }).suggestions ≠ []) ∧
    llmSkippedWarning ∈
      (analyzeResume
        { resumeText := S "", jobDescription := S "", llm := some wLLMTimeout }).warnings :=
  ⟨⟨by decide, by decide⟩,
    (sync_llm_ignored_amended (S "") (S "") none wLLMTimeout).2 (by decide) (by decide)⟩

/-! ## C10 — budget counters are touched only by a fully validated call -/

/-- C10: a `callLLM` invocation leaves the budget counters unchanged
whenever it fails (budget rejection, invalid schema, timeout, transport
error, empty response, JSON parse failure, or schema mismatch), and on
success the counters change exactly by `recordUsage` with the reported
token count; `assertCanCall` reads but never writes the counters (its
embedded type consumes no state).  `recordUsage` is thus the only
mutator on the call path, reached only after parsing and schema
validation succeed. -/
theorem budget_counters_only_recordUsage (cfg : LLMConfig) (st : ManagerState)
    (sys usr : Str) (schema : JSONSchema) (opts : LLMCallOptions) :
    ((callLLM cfg st sys usr schema opts).1.success = false →
      (callLLM cfg st sys usr schema opts).2.budget = st.budget) ∧
    ((callLLM cfg st sys usr schema opts).1.success = true →
      ∃ t, (callLLM cfg st sys usr schema opts).1.tokensUsed = some t ∧
        (callLLM cfg st sys usr schema opts).2.budget = recordUsage st.budget t) := by
  unfold callLLM
  dsimp only
  repeat' split
  all_goals constructor
  all_goals intro h
  all_goals first
    | rfl
    | exact ⟨_, rfl, rfl⟩
    | simp [llmFailure] at h

/-- Witness for C10: a budget-rejected call (the call-count limit is
zero) leaves the counters unchanged. -/
theorem budget_counters_only_recordUsage_witness :
    ((callLLM { client := .timeout, limits := wLimitsNoCalls } initManagerState
        (S "a") (S "b") suggestionEnhancementSchema {}).1.success = false) ∧
    (callLLM { client := .timeout, limits := wLimitsNoCalls } initManagerState
        (S "a") (S "b") suggestionEnhancementSchema {}).2.budget =
      initManagerState.budget :=
  ⟨by decide,
    (budget_counters_only_recordUsage { client := .timeout, limits := wLimitsNoCalls }
      initManagerState (S "a") (S "b") suggestionEnhancementSchema {}).1 (by decide)⟩

/-! ## C6 — keyword-density boundary -/

/-- Every element of `jobKeywordList` is lowercase-fixed. -/
theorem jobKeywordList_lowerFixed (j : ParsedJobDescription) :
    ∀ y ∈ jobKeywordList j, toLowerStr y = y := by
  intro y hy
  unfold jobKeywordList at hy
  rw [mem_dedup_iff] at hy
  obtain ⟨z, _, rfl⟩ := List.mem_map.mp hy
  exact toLowerStr_idem z

/-- C6: a matched keyword whose density (token frequency over the
resume's total token count) equals the configured maximum exactly is not
listed in `overusedKeywords`; one whose density strictly exceeds the
maximum is listed. -/
theorem keyword_density_boundary (resume : ParsedResume)
    (job : ParsedJobDescription) (config : ResolvedATSConfig) (kw : Str)
    (hm : kw ∈ (scoreKeywords resume job config).matchedKeywords) :
    ((countFreq (tokenize resume.normalizedText) kw : ℚ) /
        ((tokenize resume.normalizedText).length : ℚ) = config.keywordDensity.max →
      kw ∉ (scoreKeywords resume job config).overusedKeywords) ∧
    (config.keywordDensity.max <
        (countFreq (tokenize resume.normalizedText) kw : ℚ) /
          ((tokenize resume.normalizedText).length : ℚ) →
      kw ∈ (scoreKeywords resume job config).overusedKeywords) := by
  by_cases h0 : (jobKeywordList job).length = 0
  · exfalso
    simp only [scoreKeywords] at hm
    rw [if_pos h0] at hm
    simp at hm
  · simp only [scoreKeywords] at hm ⊢
    rw [if_neg h0] at hm ⊢
    dsimp only at hm ⊢
    set tokens := tokenize resume.normalizedText with htok
    have hfixq : ∀ y ∈ (jobKeywordList job).filter (fun k => tokens.contains k),
        toLowerStr y = y :=
      fun y hy => jobKeywordList_lowerFixed job y (List.mem_of_mem_filter hy)
    rw [mem_unique_iff hfixq] at hm
    have hktok : kw ∈ tokens := by
      have hc := (List.mem_filter.mp hm).2
      simpa using hc
    have hlen : ¬ tokens.length = 0 := by
      intro hl
      rw [List.length_eq_zero] at hl
      rw [hl] at hktok
      simp at hktok
    rw [if_neg hlen]
    have hfixp : ∀ y ∈ ((jobKeywordList job).filter
        (fun k => tokens.contains k)).filter
        (fun keyword => decide (config.keywordDensity.max <
          (countFreq tokens keyword : ℚ) / (tokens.length : ℚ))),
        toLowerStr y = y :=
      fun y hy => hfixq y (List.mem_of_mem_filter hy)
    constructor
    · intro heq hmem
      rw [mem_unique_iff hfixp] at hmem
      have hp := (List.mem_filter.mp hmem).2
      rw [decide_eq_true_eq] at hp
      rw [heq] at hp
      exact lt_irrefl _ hp
    · intro hlt
      rw [mem_unique_iff hfixp]
      exact List.mem_filter.mpr ⟨hm, by rw [decide_eq_true_eq]; exact hlt⟩

set_option maxHeartbeats 16000000 in
set_option maxRecDepth 10000 in
/-- Witness for C6: with a configured maximum density of `1/5`, the
matched keyword `react` at density `3/4` is flagged overused. -/
theorem keyword_density_boundary_witness :
    (S "react" ∈ (scoreKeywords (parseResume wResumeReact (resolveConfig wDensityConfig))
        (parseJobDescription wJobReact (resolveConfig wDensityConfig))
        (resolveConfig wDensityConfig)).matchedKeywords ∧
      (resolveConfig wDensityConfig).keywordDensity.max <
        (countFreq (tokenize (parseResume wResumeReact
            (resolveConfig wDensityConfig)).normalizedText) (S "react") : ℚ) /
          ((tokenize (parseResume wResumeReact
            (resolveConfig wDensityConfig)).normalizedText).length : ℚ)) ∧
    S "react" ∈ (scoreKeywords (parseResume wResumeReact (resolveConfig wDensityConfig))
        (parseJobDescription wJobReact (resolveConfig wDensityConfig))
        (resolveConfig wDensityConfig)).overusedKeywords :=
  ⟨⟨by decide, by decide⟩,
    (keyword_density_boundary (parseResume wResumeReact (resolveConfig wDensityConfig))
      (parseJobDescription wJobReact (resolveConfig wDensityConfig))
      (resolveConfig wDensityConfig) (S "react") (by decide)).2 (by decide)⟩

/-! ## C7 — missing-section warnings and penalties -/

/-- With no user rules and a non-negative overuse penalty, the total
penalty is at least the section-penalty total. -/
theorem ruleEvaluate_penalty_ge (config : ResolvedATSConfig)
    (input : RuleEvaluationInput)
    (h28 : 28 ≤ (applySectionPenalties config input.resume).totalPenalty)
    (hop : 0 ≤ config.keywordDensity.overusePenalty)
    (hrules : config.rules = []) :
    28 ≤ (ruleEvaluate config input).totalPenalty := by
  unfold ruleEvaluate applyDefaultRules
  rw [hrules]
  dsimp only
  have h1 : (0:ℚ) ≤
      if containsTableLikeStructure input.resume.raw then 8 else 0 := by
    split <;> norm_num
  have h2 : (0:ℚ) ≤
      if (input.overusedKeywords.getD []).length ≠ 0 then
        ((input.overusedKeywords.getD []).length : ℚ) *
          config.keywordDensity.overusePenalty
      else 0 := by
    split
    · positivity
    · norm_num
  have h3 : (0:ℚ) ≤
    if input.resume.detectedSections.length < 3 then 5 else 0 := by
    split <;> norm_num
  simp only [List.filter_nil, List.map_nil, List.sum_nil]
  linarith

set_option maxHeartbeats 16000000 in
set_option maxRecDepth 10000 in
/-- C7 counterexample: against an empty resume (no section detected) and
the job text `"bachelor required javascript"`, the pre-penalty composite
is `0` and the returned score equals it (the clamp floors the penalised
score at `0`), so the score is *not* strictly less than the composite
even though all four missing-section warnings are present. -/
theorem missing_sections_strictness_counterexample :
    (∀ sec ∈ [ResumeSection.summary, .experience, .skills, .education],
      sec ∉ (parseResume (S "") (resolveConfig {})).detectedSections) ∧
    S "summary section missing (penalty 4)" ∈
      (analyzeResume { resumeText := S "", jobDescription := wJobEdu }).warnings ∧
    (calculateScore (parseResume (S "") (resolveConfig {}))
      (parseJobDescription wJobEdu (resolveConfig {})) (resolveConfig {})).score = 0 ∧
    (analyzeResume { resumeText := S "", jobDescription := wJobEdu }).score =
      (calculateScore (parseResume (S "") (resolveConfig {}))
        (parseJobDescription wJobEdu (resolveConfig {})) (resolveConfig {})).score := by
  exact ⟨by decide, by decide, by decide, by decide⟩

/-- C7 amended: under the default configuration, a resume in which none
of the four required sections is detected yields all four
`<section> section missing (penalty n)` warnings, and the returned score
is strictly below the pre-penalty composite *whenever that composite is
positive* (a zero composite stays zero under the clamp). -/
theorem missing_sections_amended (resumeText jobDescription : Str)
    (h : ∀ sec ∈ [ResumeSection.summary, .experience, .skills, .education],
      sec ∉ (parseResume resumeText (resolveConfig {})).detectedSections) :
    (S "summary section missing (penalty 4)" ∈
        (analyzeResume
          { resumeText := resumeText, jobDescription := jobDescription }).warnings ∧
      S "experience section missing (penalty 10)" ∈
        (analyzeResume
          { resumeText := resumeText, jobDescription := jobDescription }).warnings ∧
      S "skills section missing (penalty 8)" ∈
        (analyzeResume
          { resumeText := resumeText, jobDescription := jobDescription }).warnings ∧
      S "education section missing (penalty 6)" ∈
        (analyzeResume
          { resumeText := resumeText, jobDescription := jobDescription }).warnings) ∧
    (0 < (calculateScore (parseResume resumeText (resolveConfig {}))
        (parseJobDescription jobDescription (resolveConfig {}))
        (resolveConfig {})).score →
      (analyzeResume
        { resumeText := resumeText, jobDescription := jobDescription }).score <
        (calculateScore (parseResume resumeText (resolveConfig {}))
          (parseJobDescription jobDescription (resolveConfig {}))
          (resolveConfig {})).score) := by
  have hfilter : ([ResumeSection.summary, .experience, .skills, .education].filter
      (fun sec => !(parseResume resumeText
        (resolveConfig {})).detectedSections.contains sec)) =
      [ResumeSection.summary, .experience, .skills, .education] := by
    rw [List.filter_eq_self]
    intro a ha
    simpa using h a ha
  have happ : applySectionPenalties (resolveConfig {})
      (parseResume resumeText (resolveConfig {})) =
      { totalPenalty := 28,
        warnings := [S "summary section missing (penalty 4)",
          S "experience section missing (penalty 10)",
          S "skills section missing (penalty 8)",
          S "education section missing (penalty 6)"] } := by
    unfold applySectionPenalties
    dsimp only
    rw [hfilter]
    decide
  constructor
  · refine ⟨?_, ?_, ?_, ?_⟩ <;>
    · simp only [analyzeResume, suggestionGenerate, ruleEvaluate,
        applyDefaultRules, Option.getD_none]
      rw [happ]
      simp
  · intro hc
    have hP : 28 ≤ (ruleEvaluate (resolveConfig {})
        { resume := parseResume resumeText (resolveConfig {}),
          job := parseJobDescription jobDescription (resolveConfig {}),
          breakdown := some (calculateScore (parseResume resumeText (resolveConfig {}))
            (parseJobDescription jobDescription (resolveConfig {}))
            (resolveConfig {})).breakdown,
          matchedKeywords := some (calculateScore (parseResume resumeText (resolveConfig {}))
            (parseJobDescription jobDescription (resolveConfig {}))
            (resolveConfig {})).matchedKeywords,
          overusedKeywords := some (calculateScore (parseResume resumeText (resolveConfig {}))
            (parseJobDescription jobDescription (resolveConfig {}))
            (resolveConfig {})).overusedKeywords }).totalPenalty := by
      refine ruleEvaluate_penalty_ge _ _ ?_ (by decide) rfl
      rw [happ]
    simp only [analyzeResume, Option.getD_none]
    refine lt_of_le_of_lt (min_le_left _ _) (max_lt (by linarith) hc)

set_option maxHeartbeats 16000000 in
set_option maxRecDepth 10000 in
/-- Witness for C7's amended theorem at the empty resume and empty job
description. -/
theorem missing_sections_amended_witness :
    (∀ sec ∈ [ResumeSection.summary, .experience, .skills, .education],
      sec ∉ (parseResume (S "") (resolveConfig {})).detectedSections) ∧
    S "summary section missing (penalty 4)" ∈
      (analyzeResume { resumeText := S "", jobDescription := S "" }).warnings :=
  ⟨by decide, ((missing_sections_amended (S "") (S "") (by decide)).1).1⟩

/-! ## C1 — failing enhancement calls degrade to the deterministic result -/

/-- A payload that passes `validateJsonSchema` is an object or an array,
hence truthy. -/
theorem validate_truthy (d : Json) (s : JSONSchema)
    (h : validateJsonSchema d s = true) : jsTruthy d = true := by
  unfold validateJsonSchema at h
  split at h
  · simp at h
  · cases d
    all_goals first
      | rfl
      | simp at h

/-- Every failing `callLLM` result carries an error message, and every
successful one carries a truthy (schema-validated) payload. -/
theorem callLLM_inv (cfg : LLMConfig) (st : ManagerState) (sys usr : Str)
    (schema : JSONSchema) (opts : LLMCallOptions) :
    ((callLLM cfg st sys usr schema opts).1.success = false →
      ∃ e, (callLLM cfg st sys usr schema opts).1.error = some e) ∧
    ((callLLM cfg st sys usr schema opts).1.success = true →
      ∃ j, (callLLM cfg st sys usr schema opts).1.data = some j ∧
        jsTruthy j = true) := by
  unfold callLLM
  dsimp only
  repeat' split
  all_goals first
    | exact ⟨fun _ => ⟨_, rfl⟩, fun hs => by simp [llmFailure] at hs⟩
    | exact ⟨fun hf => by simp at hf,
        fun _ => ⟨_, rfl, validate_truthy _ schema (by simp_all [validateAgainstSchema])⟩⟩

/-- When suggestions are enabled, a failing asynchronous enhancement
always reports at least one warning. -/
theorem enhance_fail_warnings (cfg : LLMConfig) (s : List Str)
    (hEn : llmSuggestionsEnabled cfg = true)
    (hFail : (enhanceSuggestionsWithLLMAsync cfg s).success = false) :
    (enhanceSuggestionsWithLLMAsync cfg s).warnings ≠ [] := by
  unfold enhanceSuggestionsWithLLMAsync at hFail ⊢
  rw [hEn] at hFail ⊢
  rw [if_neg (by simp : ¬((!true : Bool) = true))] at hFail ⊢
  dsimp only at hFail ⊢
  rcases hsucc : (callLLM cfg initManagerState suggestionEnhancementSystem
      (suggestionEnhancementUser s) suggestionEnhancementSchema
      { requestedTokens := some 2000 }).1.success with _ | _
  · obtain ⟨e, herr⟩ := (callLLM_inv cfg initManagerState _ _ _ _).1 hsucc
    simp [hsucc, herr]
  · obtain ⟨j, hj, hjt⟩ := (callLLM_inv cfg initManagerState _ _ _ _).2 hsucc
    simp only [hsucc, hj, jsTruthyOpt, hjt, Bool.not_true, Bool.or_self,
      Bool.false_eq_true, if_false] at hFail ⊢
    split at hFail
    · next hcond =>
      rw [if_pos hcond]
      simp
    · simp at hFail

/-- C1: when an enhancement configuration is supplied with suggestions
enabled, the deterministic suggestion list is non-empty and the external
call fails at any stage (the enhancement helper reports failure —
budget exhaustion, invalid schema, timeout, transport rejection, empty
response, malformed JSON, schema mismatch, or an empty actionable set),
`analyzeResumeAsync` still returns normally with the same score,
breakdown and matched/missing/overused keyword lists as the run without
an LLM configuration, retains the deterministic suggestions, and
appends the (non-empty) enhancement warnings. -/
theorem async_llm_failure_degrades_gracefully (resumeText jobDescription : Str)
    (config : Option ATSConfig) (cfg : LLMConfig)
    (hEn : llmSuggestionsEnabled cfg = true)
    (hNE : (analyzeResume
      { resumeText := resumeText, jobDescription := jobDescription,
        config := config }).suggestions ≠ [])
    (hFail : (enhanceSuggestionsWithLLMAsync cfg
      (analyzeResume
        { resumeText := resumeText, jobDescription := jobDescription,
          config := config }).suggestions).success = false) :
    (analyzeResumeAsync
      { resumeText := resumeText, jobDescription := jobDescription,
        config := config, llm := some cfg }).score =
      (analyzeResume
        { resumeText := resumeText, jobDescription := jobDescription,
          config := config }).score ∧
    (analyzeResumeAsync
      { resumeText := resumeText, jobDescription := jobDescription,
        config := config, llm := some cfg }).breakdown =
      (analyzeResume
        { resumeText := resumeText, jobDescription := jobDescription,
          config := config }).breakdown ∧
    (analyzeResumeAsync
      { resumeText := resumeText, jobDescription := jobDescription,
        config := config, llm := some cfg }).matchedKeywords =
      (analyzeResume
        { resumeText := resumeText, jobDescription := jobDescription,
          config := config }).matchedKeywords ∧
    (analyzeResumeAsync
      { resumeText := resumeText, jobDescription := jobDescription,
        config := config, llm := some cfg }).missingKeywords =
      (analyzeResume
        { resumeText := resumeText, jobDescription := jobDescription,
          config := config }).missingKeywords ∧
    (analyzeResumeAsync
      { resumeText := resumeText, jobDescription := jobDescription,
        config := config, llm := some cfg }).overusedKeywords =
      (analyzeResume
        { resumeText := resumeText, jobDescription := jobDescription,
          config := config }).overusedKeywords ∧
    (analyzeResumeAsync
      { resumeText := resumeText, jobDescription := jobDescription,
        config := config, llm := some cfg }).suggestions =
      (analyzeResume
        { resumeText := resumeText, jobDescription := jobDescription,
          config := config }).suggestions ∧
    (analyzeResumeAsync
      { resumeText := resumeText, jobDescription := jobDescription,
        config := config, llm := some cfg }).warnings =
      (analyzeResume
        { resumeText := resumeText, jobDescription := jobDescription,
          config := config }).warnings ++
      (enhanceSuggestionsWithLLMAsync cfg
        (analyzeResume
          { resumeText := resumeText, jobDescription := jobDescription,
            config := config }).suggestions).warnings ∧
    (enhanceSuggestionsWithLLMAsync cfg
      (analyzeResume
        { resumeText := resumeText, jobDescription := jobDescription,
          config := config }).suggestions).warnings ≠ [] := by
  have hwne := enhance_fail_warnings cfg _ hEn hFail
  refine ⟨?_, ?_, ?_, ?_, ?_, ?_, ?_, hwne⟩
  all_goals
    simp only [analyzeResume, analyzeResumeAsync, List.append_nil] at hNE hFail ⊢
  all_goals rw [if_pos (List.length_pos.mpr hNE)]
  all_goals simp [hFail]

set_option maxHeartbeats 16000000 in
set_option maxRecDepth 10000 in
/-- Witness for C1: a timing-out client on empty inputs (the default
profile guarantees a non-empty deterministic suggestion list). -/
theorem async_llm_failure_degrades_gracefully_witness :
    (llmSuggestionsEnabled wLLMTimeout = true ∧
      (analyzeResume { resumeText := S "", jobDescription := S "" }).suggestions ≠ [] ∧
      (enhanceSuggestionsWithLLMAsync wLLMTimeout
        (analyzeResume
          { resumeText := S "", jobDescription := S "" }).suggestions).success = false) ∧
    (analyzeResumeAsync
      { resumeText := S "", jobDescription := S "", llm := some wLLMTimeout }).score =
      (analyzeResume { resumeText := S "", jobDescription := S "" }).score :=
  ⟨⟨by decide, by decide, by decide⟩,
    (async_llm_failure_degrades_gracefully (S "") (S "") none wLLMTimeout
      (by decide) (by decide) (by decide)).1⟩

end ATS
